import Mathlib

/-!
Verification development for the Travel-Recommendation service (src/app.py).

The Python code is shallowly embedded: place records become a structure of
optional fields, JSON values become an inductive type, Python numeric
conversions (`float`, `int`, `round`) become explicit partial parsers and
rational/real operations, and uncaught Python exceptions become `Except`
errors.  Python's binary floating point is idealised as exact rational
(respectively real, for the trigonometric haversine code) arithmetic, and
`round` as decimal round-half-to-even.
-/

/-- JSON-like Python values as they occur in request bodies and in the
fields of place dictionaries. -/
inductive JVal where
  | null : JVal
  | bool : Bool → JVal
  | num : ℚ → JVal
  | str : String → JVal
  | arr : List JVal → JVal
  | obj : List (String × JVal) → JVal

/-- Python exception classes relevant to the embedded code. -/
inductive PyErr where
  | valueError : PyErr
  | typeError : PyErr
  | attributeError : PyErr
  deriving DecidableEq

/-- Python truthiness (`bool(v)`) of a JSON value. -/
def truthy : JVal → Bool
  | .null => false
  | .bool b => b
  | .num q => decide (q ≠ 0)
  | .str s => !s.toList.isEmpty
  | .arr l => !l.isEmpty
  | .obj l => !l.isEmpty

/-- Python `s.lower()` (ASCII, which is all this pipeline uses). -/
def lowerStr (s : String) : String :=
  String.mk (s.toList.map Char.toLower)

/-- Python `s.strip()`. -/
def trimStr (s : String) : String :=
  String.mk (((s.toList.dropWhile Char.isWhitespace).reverse.dropWhile Char.isWhitespace).reverse)

/-- Split a character list at every occurrence of `c`
(Python `s.split(c)` for a one-character separator). -/
def splitOnChar (c : Char) : List Char → List (List Char)
  | [] => [[]]
  | x :: xs =>
    if x = c then [] :: splitOnChar c xs
    else
      match splitOnChar c xs with
      | [] => [[x]]
      | t :: ts => (x :: t) :: ts

/-- Numeric value of a decimal digit string. -/
def digitsVal (l : List Char) : ℕ :=
  l.foldl (fun acc c => acc * 10 + (c.toNat - 48)) 0

/-- Consume an optional leading sign; returns (isNegative, rest). -/
def parseSign : List Char → Bool × List Char
  | '+' :: rest => (false, rest)
  | '-' :: rest => (true, rest)
  | l => (false, l)

/-- Parse an unsigned decimal mantissa `digits [. digits]` (at least one
digit overall), returning its value and the unconsumed input. -/
def parseMantissa (l : List Char) : Option (ℚ × List Char) :=
  let ip := l.takeWhile Char.isDigit
  let rest := l.drop ip.length
  match rest with
  | '.' :: rest2 =>
    let fp := rest2.takeWhile Char.isDigit
    if ip.isEmpty && fp.isEmpty then none
    else some ((digitsVal ip : ℚ) + (digitsVal fp : ℚ) / 10 ^ fp.length, rest2.drop fp.length)
  | _ => if ip.isEmpty then none else some ((digitsVal ip : ℚ), rest)

/-- Parse an optional exponent part `e[+-]digits`. -/
def parseExp : List Char → Option (ℤ × List Char)
  | [] => some (0, [])
  | c :: rest =>
    if c = 'e' ∨ c = 'E' then
      let sr := parseSign rest
      let ds := sr.2.takeWhile Char.isDigit
      if ds.isEmpty then none
      else some ((if sr.1 then -(digitsVal ds : ℤ) else (digitsVal ds : ℤ)), sr.2.drop ds.length)
    else some (0, c :: rest)

/-- Python `float(s)` on a string: surrounding whitespace, optional sign,
decimal mantissa, optional exponent.  (The special values `inf`/`nan` are
not modelled; they never occur in this pipeline.)  `none` means
`ValueError`. -/
def parseFloat? (s : String) : Option ℚ :=
  let l := ((s.toList.dropWhile Char.isWhitespace).reverse.dropWhile Char.isWhitespace).reverse
  let sl := parseSign l
  match parseMantissa sl.2 with
  | none => none
  | some (m, rest) =>
    match parseExp rest with
    | none => none
    | some (e, rest2) =>
      if rest2.isEmpty then some ((if sl.1 then -m else m) * (10 : ℚ) ^ e) else none

/-- Python `int(s)` on a string: surrounding whitespace, optional sign,
decimal digits.  `none` means `ValueError`. -/
def parseInt? (s : String) : Option ℤ :=
  let l := ((s.toList.dropWhile Char.isWhitespace).reverse.dropWhile Char.isWhitespace).reverse
  let sl := parseSign l
  if sl.2.isEmpty || !sl.2.all Char.isDigit then none
  else some (if sl.1 then -(digitsVal sl.2 : ℤ) else (digitsVal sl.2 : ℤ))

/-- Python `float(v)` on an arbitrary value.  Booleans are integers in
Python (`float(True) = 1.0`); non-numeric non-string values raise
`TypeError`, unparseable strings raise `ValueError`. -/
def pyFloat : JVal → Except PyErr ℚ
  | .num q => .ok q
  | .bool b => .ok (if b then 1 else 0)
  | .str s =>
    match parseFloat? s with
    | some q => .ok q
    | none => .error .valueError
  | _ => .error .typeError

/-- The numeric value of a value that passes
`isinstance(v, (int, float))` (numbers and booleans), else `none`. -/
def toNumQ : JVal → Option ℚ
  | .num q => some q
  | .bool b => some (if b then 1 else 0)
  | _ => none

/-- Python `l > r` for `l` numeric; comparing a number with a
non-numeric value raises `TypeError` (`none`). -/
def pyGtNum (l r : JVal) : Option Bool :=
  match toNumQ l, toNumQ r with
  | some a, some b => some (decide (b < a))
  | _, _ => none

/-- Round a rational to the nearest integer, ties to even
(Python's `round`, idealised to exact decimal arithmetic). -/
def roundHalfEven (q : ℚ) : ℤ :=
  if q - ⌊q⌋ < 1 / 2 then ⌊q⌋
  else if 1 / 2 < q - ⌊q⌋ then ⌊q⌋ + 1
  else if Even ⌊q⌋ then ⌊q⌋ else ⌊q⌋ + 1

/-- Python `round(q, n)` on rationals. -/
def pyRound (q : ℚ) (n : ℕ) : ℚ :=
  (roundHalfEven (q * 10 ^ n) : ℚ) / 10 ^ n

open Classical in
/-- Round a real to the nearest integer, ties to even. -/
noncomputable def roundHalfEvenR (x : ℝ) : ℤ :=
  if x - ⌊x⌋ < 1 / 2 then ⌊x⌋
  else if 1 / 2 < x - ⌊x⌋ then ⌊x⌋ + 1
  else if Even ⌊x⌋ then ⌊x⌋ else ⌊x⌋ + 1

/-- Python `round(x, n)` on reals. -/
noncomputable def pyRoundR (x : ℝ) (n : ℕ) : ℝ :=
  (roundHalfEvenR (x * 10 ^ n) : ℝ) / 10 ^ n

/-- A place record (`dict`) as it flows through the pipeline.  Absent keys
are `none`.  `rating`, `user_ratings` and `reviews` keep their raw JSON
value because the code stores both numbers and strings such as
`"Unknown"` there. -/
structure Place where
  name : Option String := none
  category : Option String := none
  lat : Option ℚ := none
  lng : Option ℚ := none
  rating : Option JVal := none
  user_ratings : Option JVal := none
  reviews : Option JVal := none
  travel_time : Option String := none
  best_season : Option String := none
  description : Option String := none
  seasonal_warning : Option String := none
  distance_km : Option ℝ := none
  score : Option ℚ := none

/-- A raw result record of the Places API (`data["results"]`), already
restricted to the fields the adapter reads.  `rating` and
`user_ratings_total` are absent (`none`) when the upstream omits them
(the code then uses `place.get(..., 0)` defaults). -/
structure ApiPlace where
  name : String
  lat : ℚ
  lng : ℚ
  rating : Option ℚ := none
  user_ratings_total : Option ℚ := none

/-- The fixed preference-to-category table of `get_nearby_places`. -/
def place_types : List (String × String) :=
  [("temple", "hindu_temple"),
   ("mosque", "mosque"),
   ("church", "church"),
   ("historical", "museum, landmark, heritage_site"),
   ("nature", "park, zoo, botanical_garden, national_park"),
   ("adventure", "amusement_park, hiking_area, theme_park"),
   ("food", "restaurant, cafe, bakery, bar"),
   ("shopping", "shopping_mall, flea_market, supermarket"),
   ("beach", "beach, waterfront"),
   ("nightlife", "night_club, casino, bar"),
   ("wellness", "spa, wellness_center, yoga_studio"),
   ("family", "aquarium, amusement_park, playground, kids_activity")]

/-- `place_types.get(preference.lower(), "tourist_attraction")`. -/
def placeTypeFor (preference : String) : String :=
  (((place_types.find? (fun e => e.1 == lowerStr preference)).map Prod.snd).getD "tourist_attraction")

/-- The record built for one qualifying API result (rating already
checked `>= 4.0`). -/
def apiToPlace (preference : String) (pl : ApiPlace) : Place :=
  { name := some pl.name,
    category := some preference,
    lat := some pl.lat,
    lng := some pl.lng,
    rating := some (.num (pl.rating.getD 0)),
    user_ratings := some (.num (pl.user_ratings_total.getD 0)) }

/-- The loop of `get_nearby_places` over `data.get("results", [])`: only
places with rating `>= 4.0` qualify. -/
def qualifyingPlaces (preference : String) (results : List ApiPlace) : List Place :=
  results.filterMap (fun pl =>
    if (4 : ℚ) ≤ pl.rating.getD 0 then some (apiToPlace preference pl) else none)

/-- `get_nearby_places`, fed with the outcome of the upstream request:
`.error` for any exception along the way (network, malformed response),
`.ok results` for a well-formed response.  An empty qualifying list or an
error yields a one-element sentinel list. -/
def get_nearby_places (preference : String) (response : Except Unit (List ApiPlace)) :
    List Place :=
  match response with
  | .error _ => [{ name := some "Error fetching places" }]
  | .ok results =>
    if (qualifyingPlaces preference results).isEmpty then [{ name := some "No places found" }]
    else qualifyingPlaces preference results

/-- The 4-decimal rounded coordinate key of `merge_duplicate_places`
(missing coordinates default to `0`). -/
def placeKey (place : Place) : ℚ × ℚ :=
  (pyRound (place.lat.getD 0) 4, pyRound (place.lng.getD 0) 4)

/-- One iteration of the `merge_duplicate_places` loop over the
insertion-ordered mapping `unique`.  A `TypeError` escapes when a numeric
new rating is compared against a non-numeric stored rating. -/
def mergeStep (acc : List ((ℚ × ℚ) × Place)) (place : Place) :
    Except PyErr (List ((ℚ × ℚ) × Place)) :=
  let key := placeKey place
  match acc.find? (fun e => decide (e.1 = key)) with
  | some entry =>
    match place.rating with
    | some r =>
      if (toNumQ r).isSome then
        match pyGtNum r (entry.2.rating.getD (.num 0)) with
        | some true => .ok (acc.map (fun e => if e.1 = key then (key, place) else e))
        | some false => .ok acc
        | none => .error .typeError
      else .ok acc
    | none => .ok acc
  | none => .ok (acc ++ [(key, place)])

/-- `merge_duplicate_places` at the default precision 4. -/
def merge_duplicate_places (places : List Place) : Except PyErr (List Place) :=
  (places.foldlM mergeStep []).map (fun acc => acc.map Prod.snd)

/-- The rating term of `calculate_score`: `float(place.get("rating", 4.0))`
with `ValueError`/`TypeError` defaulting to `4.0`. -/
def effRating (place : Place) : ℚ :=
  match place.rating with
  | none => 4
  | some v =>
    match pyFloat v with
    | .ok q => q
    | .error _ => 4

/-- The reviews term of `calculate_score`:
`float(place.get("user_ratings", place.get("reviews", 0)))` with errors
defaulting to `0`. -/
def effReviews (place : Place) : ℚ :=
  match place.user_ratings <|> place.reviews with
  | none => 0
  | some v =>
    match pyFloat v with
    | .ok q => q
    | .error _ => 0

/-- First whitespace-separated token of a string (Python `s.split()[0]`;
`none` is the `IndexError` on an all-whitespace string). -/
def leadingToken (s : String) : Option String :=
  let tok := (s.toList.dropWhile Char.isWhitespace).takeWhile (fun c => !c.isWhitespace)
  if tok.isEmpty then none else some (String.mk tok)

/-- The travel-time term of `calculate_score`:
`int(place.get("travel_time", "30 mins").split()[0])` with
`ValueError`/`IndexError` defaulting to `30`. -/
def effTravelMinutes (place : Place) : ℚ :=
  match leadingToken (place.travel_time.getD "30 mins") with
  | none => 30
  | some tok =>
    match parseInt? tok with
    | none => 30
    | some n => (n : ℚ)

/-- `place.get("category") in user_preferences`. -/
def categoryMem (place : Place) (user_preferences : List String) : Bool :=
  match place.category with
  | some c => user_preferences.contains c
  | none => false

/-- `calculate_score(place, user_preferences)`; a `None` preference
argument is modelled as the empty list (both are falsy). -/
def calculate_score (place : Place) (user_preferences : List String) : ℚ :=
  effRating place * 10 + effReviews place * (1 / 100) - effTravelMinutes place * (1 / 2) +
    (if user_preferences ≠ [] ∧ categoryMem place user_preferences then 1 else 0)

/-- The mutation `place["score"] = calculate_score(place, prefs)` done by
`rank_destinations` before sorting. -/
def withScore (user_preferences : List String) (place : Place) : Place :=
  { place with score := some (calculate_score place user_preferences) }

/-- The sort key `x["score"]` (always present after `withScore`). -/
def scoreKey (place : Place) : ℚ := place.score.getD 0

/-- `rank_destinations`: annotate every place with its score, then a
stable descending sort by that score (Python `sorted(..., reverse=True)`
is stable). -/
def rank_destinations (destinations : List Place) (user_preferences : List String) :
    List Place :=
  List.insertionSort (fun a b => scoreKey b ≤ scoreKey a)
    (destinations.map (withScore user_preferences))

/-- The `"rating"`-mode sort key of the handler:
`float(x.get("rating") if isinstance(x.get("rating"), (int, float)) else 0)`. -/
def ratingKey (place : Place) : ℚ :=
  match place.rating with
  | some v => (toNumQ v).getD 0
  | none => 0

/-- The `sort_by == "rating"` branch of the handler: stable descending
sort by the raw rating. -/
def sortByRating (destinations : List Place) : List Place :=
  List.insertionSort (fun a b => ratingKey b ≤ ratingKey a) destinations

/-- One sample of the 3-hourly forecast series (`data["list"]` entry),
restricted to the fields the code reads: `entry["dt_txt"]`,
`entry["main"]["temp"]`, `entry["weather"][0]["description"]`. -/
structure ForecastEntry where
  dt_txt : String
  temp : ℚ
  desc : String
  deriving DecidableEq

/-- One output record of `get_weather_forecast`. -/
structure ForecastDay where
  date : String
  avg_temp : ℚ
  description : String
  deriving DecidableEq

/-- The calendar-date prefix `entry["dt_txt"].split(" ")[0]`: the
characters before the first space. -/
def dateOf (entry : ForecastEntry) : String :=
  String.mk (entry.dt_txt.toList.takeWhile (fun c => c ≠ ' '))

/-- First occurrences of a list's elements in order (with an accumulator
of already-seen elements): the key order of the insertion-ordered
`daily_data` dictionary. -/
def dedupSeen (seen : List String) : List String → List String
  | [] => []
  | x :: xs => if x ∈ seen then dedupSeen seen xs else x :: dedupSeen (x :: seen) xs

/-- First occurrences of a list's elements in order. -/
def dedupFirst (l : List String) : List String := dedupSeen [] l

/-- `max(set(descs), key=descs.count)`: an element of maximal
multiplicity.  (Python's choice among tied maxima depends on set
iteration order; `List.argmax` fixes the first candidate, which is one
admissible choice.) -/
def mostCommonDesc (descs : List String) : Option String :=
  List.argmax (fun d => descs.count d) (dedupFirst descs)

/-- The `sorted_days` of `get_weather_forecast`: the distinct calendar
dates in first-occurrence (dictionary-key) order, sorted ascending. -/
def forecastDays (entries : List ForecastEntry) : List String :=
  List.insertionSort (fun a b => a ≤ b) (dedupFirst (entries.map dateOf))

/-- The summary `get_weather_forecast` builds for one day key: the
rounded average of that day's temperatures and the most common of its
descriptions. -/
def forecastDayFor (entries : List ForecastEntry) (day : String) : ForecastDay :=
  { date := day,
    avg_temp := pyRound
      (((entries.filter (fun e => dateOf e == day)).map ForecastEntry.temp).sum /
        (((entries.filter (fun e => dateOf e == day)).map ForecastEntry.temp).length : ℚ)) 1,
    description :=
      (mostCommonDesc ((entries.filter (fun e => dateOf e == day)).map ForecastEntry.desc)).getD "" }

/-- `get_weather_forecast`, applied to the forecast samples of a
successful response (a response without `"list"` yields `[]` before this
logic runs): one summary per distinct date, first `days` dates in
ascending order. -/
def get_weather_forecast (entries : List ForecastEntry) (days : ℕ) : List ForecastDay :=
  ((forecastDays entries).take days).map (forecastDayFor entries)

/-- Substring test (`sub in s` for Python strings). -/
def strContainsSub (s sub : String) : Bool :=
  (List.range (s.toList.length + 1)).any
    (fun i => decide ((s.toList.drop i).take sub.toList.length = sub.toList))

/-- The month list treated as the "October to March" peak window. -/
def peakMonths : List ℕ := [10, 11, 12, 1, 2, 3]

/-- The loop body of `add_seasonal_disclaimer` for one destination, with
the current month as a parameter. -/
def seasonalStep (current_month : ℕ) (dest : Place) : Place :=
  if strContainsSub (lowerStr (dest.best_season.getD "")) "october to march"
      ∧ current_month ∉ peakMonths then
    { dest with seasonal_warning := some "Note: Best visited between October and March." }
  else dest

/-- `add_seasonal_disclaimer`, with `datetime.datetime.now().month`
passed explicitly. -/
def add_seasonal_disclaimer (destinations : List Place) (current_month : ℕ) : List Place :=
  destinations.map (seasonalStep current_month)

/-- `math.radians`. -/
noncomputable def radiansOf (x : ℝ) : ℝ := x * Real.pi / 180

open Classical in
/-- `math.atan2`. -/
noncomputable def atan2 (y x : ℝ) : ℝ :=
  if 0 < x then Real.arctan (y / x)
  else if x < 0 then
    (if 0 ≤ y then Real.arctan (y / x) + Real.pi else Real.arctan (y / x) - Real.pi)
  else if 0 < y then Real.pi / 2
  else if y < 0 then -(Real.pi / 2)
  else 0

/-- `haversine_distance` with Earth radius 6371 km. -/
noncomputable def haversine_distance (lat1 lon1 lat2 lon2 : ℝ) : ℝ :=
  let dLat := radiansOf (lat2 - lat1)
  let dLon := radiansOf (lon2 - lon1)
  let a := Real.sin (dLat / 2) ^ 2 +
    Real.cos (radiansOf lat1) * Real.cos (radiansOf lat2) * Real.sin (dLon / 2) ^ 2
  let c := 2 * atan2 (Real.sqrt a) (Real.sqrt (1 - a))
  6371 * c

/-- The annotation `dest["distance_km"] = round(dist_km, 2)` for a record
with coordinates `(la, ln)`. -/
noncomputable def annotatePlace (user_location : ℚ × ℚ) (la ln : ℚ) (dest : Place) : Place :=
  { dest with
    distance_km := some (pyRoundR (haversine_distance (user_location.1 : ℝ)
      (user_location.2 : ℝ) (la : ℝ) (ln : ℝ)) 2) }

open Classical in
/-- One loop iteration of `filter_by_distance`: skip a record without
coordinates, annotate the record with the rounded distance and keep it
when the distance is within `max_distance_km` (inclusive). -/
noncomputable def fbdStep (user_location : ℚ × ℚ) (max_distance_km : ℚ) (dest : Place) :
    Option Place :=
  match dest.lat, dest.lng with
  | some lat2, some lon2 =>
    if haversine_distance (user_location.1 : ℝ) (user_location.2 : ℝ) (lat2 : ℝ) (lon2 : ℝ) ≤
        (max_distance_km : ℝ) then
      some (annotatePlace user_location lat2 lon2 dest)
    else none
  | _, _ => none

/-- `filter_by_distance`: drop records without coordinates, annotate the
rest with the rounded distance, keep those within `max_distance_km`
(inclusive). -/
noncomputable def filter_by_distance (destinations : List Place)
    (user_location : ℚ × ℚ) (max_distance_km : ℚ) : List Place :=
  destinations.filterMap (fbdStep user_location max_distance_km)

/-- `data.get(k)` on a JSON object (association list). -/
def jget (data : List (String × JVal)) (k : String) : Option JVal :=
  (data.find? (fun e => e.1 == k)).map Prod.snd

/-- Truthiness of a `data.get(k)` result (`None` when absent). -/
def truthyOpt : Option JVal → Bool
  | none => false
  | some v => truthy v

/-- The `max_distance` block of the handler:
`float(max_distance) if max_distance else None` under
`except ValueError`.  A `TypeError` (truthy non-number non-string value)
is not caught and escapes. -/
def parse_max_distance (v : Option JVal) : Except PyErr (Option ℚ) :=
  match v with
  | none => .ok none
  | some j =>
    if truthy j then
      match pyFloat j with
      | .ok q => .ok (some q)
      | .error .valueError => .ok none
      | .error e => .error e
    else .ok none

/-- Python `str(v)`.  Exact for strings (the only case this pipeline
exercises); renderings of other values are approximated. -/
def pyStrOf : JVal → String
  | .str s => s
  | .bool true => "True"
  | .bool false => "False"
  | .null => "None"
  | .num q => toString q
  | .arr _ => "[...]"
  | .obj _ => "\x7b...\x7d"

/-- The preference-list normalisation of the handler: a list is mapped
through `str(p).strip().lower()` keeping truthy entries, a string is
split on commas; anything else hits `preferences.split` and raises
`AttributeError`. -/
def computePrefList (preferences : JVal) : Except PyErr (List String) :=
  match preferences with
  | .arr l => .ok ((l.filter truthy).map (fun p => lowerStr (trimStr (pyStrOf p))))
  | .str s => .ok ((splitOnChar ',' s.toList).filterMap (fun p =>
      let t := trimStr (String.mk p)
      if t.toList.isEmpty then none else some (lowerStr t)))
  | _ => .error .attributeError

/-- Outcome of the validation phase of the `/recommend` handler (up to
and including geocoding), before any place/weather/event fetching. -/
inductive RecResult where
  | badRequest : String → RecResult
  | uncaught : PyErr → RecResult
  | proceed : List String → ℚ × ℚ → Option ℚ → JVal → RecResult

/-- The `/recommend` handler from `request.get_json()` up to geocoding,
for a present (`dict`) body.  `geocode` stands for
`get_coordinates_from_city` (`none` = unresolvable city).  Everything
after `proceed` fetches places, weather and events. -/
def recommend_withData (data : List (String × JVal))
    (geocode : JVal → Option (ℚ × ℚ)) : RecResult :=
  if data.isEmpty then .badRequest "Missing JSON body"
  else
    match parse_max_distance (jget data "max_distance") with
    | .error e => .uncaught e
    | .ok max_distance =>
      if !truthyOpt (jget data "city") || !truthyOpt (jget data "preferences") then
        .badRequest "Provide \x27city\x27 and \x27preferences\x27."
      else
        match computePrefList ((jget data "preferences").getD .null) with
        | .error e => .uncaught e
        | .ok pref_list =>
          match geocode ((jget data "city").getD .null) with
          | none => .badRequest "Invalid city name or location not found."
          | some loc => .proceed pref_list loc max_distance ((jget data "sort_by").getD (.str "score"))

/-- Dispatch on `if not data` (absent body; an empty object is equally
falsy and handled inside `recommend_withData`). -/
def recommend_early (body : Option (List (String × JVal)))
    (geocode : JVal → Option (ℚ × ℚ)) : RecResult :=
  match body with
  | none => .badRequest "Missing JSON body"
  | some data => recommend_withData data geocode

/-- `float(data.get("min_rating", 0))` under a bare `except` defaulting
to `0`. -/
def min_rating_of (v : Option JVal) : ℚ :=
  match v with
  | none => 0
  | some j =>
    match pyFloat j with
    | .ok q => q
    | .error _ => 0

/-- `float(dest.get("rating", 0))` under `except (ValueError, TypeError)`
defaulting to `0`. -/
def dest_rating (dest : Place) : ℚ :=
  match dest.rating with
  | none => 0
  | some v =>
    match pyFloat v with
    | .ok q => q
    | .error _ => 0

/-- The (F3) min-rating filter of the handler (inclusive `>=`). -/
def min_rating_filter (destinations : List Place) (min_rating : ℚ) : List Place :=
  destinations.filter (fun dest => decide (min_rating ≤ dest_rating dest))

theorem categoryMem_iff (p : Place) (prefs : List String) :
    categoryMem p prefs = true ↔ ∃ c, p.category = some c ∧ c ∈ prefs := by
  unfold categoryMem
  cases h : p.category <;> simp [List.elem_iff]

theorem bonus_ite_eq (p : Place) (prefs : List String) :
    (if prefs ≠ [] ∧ categoryMem p prefs then (1 : ℚ) else 0) =
      if categoryMem p prefs then 1 else 0 := by
  by_cases h : categoryMem p prefs
  · have hc := (categoryMem_iff p prefs).mp h
    obtain ⟨c, _, hmem⟩ := hc
    simp [h, List.ne_nil_of_mem hmem]
  · simp [h]

/-- C1: for a place with a numeric rating the score is
`rating*10 + reviews*0.01 - travel_minutes*0.5`, plus `1.0` exactly when
the place's category is in the active preference list; a missing or
non-convertible rating defaults to `4.0`, missing or non-convertible
reviews to `0`, and a missing or unparseable travel time to `30`
minutes. -/
theorem calculate_score_correct (p : Place) (prefs : List String) :
    (∀ q : ℚ, p.rating = some (.num q) →
      calculate_score p prefs =
        q * 10 + effReviews p * (1 / 100) - effTravelMinutes p * (1 / 2) +
          (if categoryMem p prefs then 1 else 0)) ∧
    (categoryMem p prefs = true ↔ ∃ c, p.category = some c ∧ c ∈ prefs) ∧
    (p.rating = none → effRating p = 4) ∧
    (∀ v e, p.rating = some v → pyFloat v = .error e → effRating p = 4) ∧
    (p.user_ratings = none → p.reviews = none → effReviews p = 0) ∧
    (∀ v e, (p.user_ratings <|> p.reviews) = some v → pyFloat v = .error e →
      effReviews p = 0) ∧
    (p.travel_time = none → effTravelMinutes p = 30) ∧
    (∀ s, p.travel_time = some s → leadingToken s = none → effTravelMinutes p = 30) ∧
    (∀ s t, p.travel_time = some s → leadingToken s = some t → parseInt? t = none →
      effTravelMinutes p = 30) ∧
    (calculate_score p prefs =
      effRating p * 10 + effReviews p * (1 / 100) - effTravelMinutes p * (1 / 2) +
        (if categoryMem p prefs then 1 else 0)) := by
  refine ⟨?_, categoryMem_iff p prefs, ?_, ?_, ?_, ?_, ?_, ?_, ?_, ?_⟩
  · intro q hq
    unfold calculate_score effRating
    rw [hq, bonus_ite_eq]
    simp [pyFloat]
  · intro h; unfold effRating; rw [h]
  · intro v e hv he; unfold effRating; rw [hv]; simp [he]
  · intro h1 h2; unfold effReviews; rw [h1, h2]; rfl
  · intro v e hv he; unfold effReviews; rw [hv]; simp [he]
  · intro h; unfold effTravelMinutes; rw [h]; rfl
  · intro s hs hl; unfold effTravelMinutes; rw [hs]; simp [hl]
  · intro s t hs hl hp; unfold effTravelMinutes; rw [hs]; simp [hl, hp]
  · unfold calculate_score; rw [bonus_ite_eq]

/-- A concrete place: rating 4.5, 120 user ratings, 15 minutes away,
category "food". -/
def scoreSamplePlace : Place :=
  { rating := some (.num (9 / 2)), user_ratings := some (.num 120),
    travel_time := some "15 mins", category := some "food" }

/-- C1 witness: the sample place with a matching preference scores
`4.5*10 + 120*0.01 - 15*0.5 + 1 = 39.7`. -/
theorem calculate_score_correct_witness :
    calculate_score scoreSamplePlace ["food"] = 397 / 10 := by
  have h := (calculate_score_correct scoreSamplePlace ["food"]).1 (9 / 2) rfl
  rw [h]
  have hr : effReviews scoreSamplePlace = 120 := rfl
  have ht : effTravelMinutes scoreSamplePlace = 15 := by
    simp [effTravelMinutes, scoreSamplePlace, leadingToken, parseInt?, parseSign, digitsVal]
  have hc : categoryMem scoreSamplePlace ["food"] = true := by decide
  rw [hr, ht, hc]
  norm_num

/-- C9: `add_seasonal_disclaimer` adds the warning exactly to records whose
(lowercased) best-season label contains `"october to march"` when the
current month is outside `{10, 11, 12, 1, 2, 3}`, leaves all other records
unchanged, and never touches any other field. -/
theorem add_seasonal_disclaimer_correct (destinations : List Place) (m : ℕ) :
    (add_seasonal_disclaimer destinations m = destinations.map (seasonalStep m)) ∧
    (∀ d : Place, strContainsSub (lowerStr (d.best_season.getD "")) "october to march" = true →
      m ∉ peakMonths →
      seasonalStep m d =
        { d with seasonal_warning := some "Note: Best visited between October and March." }) ∧
    (∀ d : Place,
      strContainsSub (lowerStr (d.best_season.getD "")) "october to march" = false →
      seasonalStep m d = d) ∧
    (∀ d : Place, m ∈ peakMonths → seasonalStep m d = d) ∧
    (∀ d : Place, (seasonalStep m d).name = d.name ∧ (seasonalStep m d).category = d.category ∧
      (seasonalStep m d).lat = d.lat ∧ (seasonalStep m d).lng = d.lng ∧
      (seasonalStep m d).rating = d.rating ∧ (seasonalStep m d).user_ratings = d.user_ratings ∧
      (seasonalStep m d).reviews = d.reviews ∧ (seasonalStep m d).travel_time = d.travel_time ∧
      (seasonalStep m d).best_season = d.best_season ∧
      (seasonalStep m d).description = d.description ∧
      (seasonalStep m d).distance_km = d.distance_km ∧ (seasonalStep m d).score = d.score) ∧
    (peakMonths = [10, 11, 12, 1, 2, 3]) ∧
    (strContainsSub (lowerStr "October to March") "october to march" = true) ∧
    (strContainsSub (lowerStr "All year round") "october to march" = false) ∧
    (strContainsSub (lowerStr "Monsoon & Winter (June to February)") "october to march" = false) ∧
    (strContainsSub (lowerStr "November to February") "october to march" = false) := by
  refine ⟨rfl, ?_, ?_, ?_, ?_, rfl, by decide, by decide, by decide, by decide⟩
  · intro d h1 h2
    unfold seasonalStep
    rw [if_pos ⟨h1, h2⟩]
  · intro d h1
    unfold seasonalStep
    rw [if_neg]
    simp [h1]
  · intro d h2
    unfold seasonalStep
    rw [if_neg]
    simp [h2]
  · intro d
    unfold seasonalStep
    split <;> simp

/-- C9 witness: with current month July, a place whose best season is
"October to March" gets the warning; in December it does not; an
"All year round" place is never touched. -/
theorem add_seasonal_disclaimer_correct_witness :
    seasonalStep 7 { best_season := some "October to March" } =
      { best_season := some "October to March",
        seasonal_warning := some "Note: Best visited between October and March." } ∧
    seasonalStep 12 { best_season := some "October to March" } =
      { best_season := some "October to March" } ∧
    seasonalStep 7 { best_season := some "All year round" } =
      { best_season := some "All year round" } := by
  refine ⟨?_, ?_, ?_⟩
  · exact (add_seasonal_disclaimer_correct [] 7).2.1
      { best_season := some "October to March" } (by decide) (by decide)
  · exact (add_seasonal_disclaimer_correct [] 12).2.2.2.1
      { best_season := some "October to March" } (by decide)
  · exact (add_seasonal_disclaimer_correct [] 7).2.2.1
      { best_season := some "All year round" } (by decide)

/-- C10: in the handler's min-rating filter a missing or non-convertible
rating counts as `0`, so such a record survives exactly when the effective
`min_rating` is `≤ 0`; any positive `min_rating` removes every sentinel
and every `"Unknown"`-rated record; a non-convertible `min_rating` value
itself becomes `0`, which filters nothing (ratings being non-negative). -/
theorem min_rating_filter_correct :
    (∀ p : Place, p.rating = none → dest_rating p = 0) ∧
    (∀ (p : Place) v e, p.rating = some v → pyFloat v = .error e → dest_rating p = 0) ∧
    (∀ (dests : List Place) (minR : ℚ) (p : Place),
      (p.rating = none ∨ ∃ v e, p.rating = some v ∧ pyFloat v = .error e) →
      (p ∈ min_rating_filter dests minR ↔ p ∈ dests ∧ minR ≤ 0)) ∧
    (∀ (dests : List Place) (minR : ℚ) (p : Place), 0 < minR →
      (p.rating = none ∨ p.rating = some (.str "Unknown")) →
      p ∉ min_rating_filter dests minR) ∧
    (min_rating_of none = 0) ∧
    (∀ v e, pyFloat v = .error e → min_rating_of (some v) = 0) ∧
    (∀ dests : List Place, (∀ p ∈ dests, 0 ≤ dest_rating p) →
      min_rating_filter dests 0 = dests) := by
  have hzero : ∀ (p : Place), (p.rating = none ∨ ∃ v e, p.rating = some v ∧ pyFloat v = .error e) →
      dest_rating p = 0 := by
    intro p h
    unfold dest_rating
    rcases h with h | ⟨v, e, hv, he⟩
    · rw [h]
    · rw [hv]; simp [he]
  refine ⟨?_, ?_, ?_, ?_, rfl, ?_, ?_⟩
  · intro p h; exact hzero p (Or.inl h)
  · intro p v e hv he; exact hzero p (Or.inr ⟨v, e, hv, he⟩)
  · intro dests minR p h
    rw [min_rating_filter, List.mem_filter, hzero p h]
    simp
  · intro dests minR p hpos h
    have h0 : dest_rating p = 0 := by
      rcases h with h | h
      · exact hzero p (Or.inl h)
      · exact hzero p (Or.inr ⟨.str "Unknown", .valueError, h, rfl⟩)
    intro hmem
    rw [min_rating_filter, List.mem_filter] at hmem
    have hdec := hmem.2
    rw [h0] at hdec
    simp at hdec
    exact absurd hdec (not_le.mpr hpos)
  · intro v e he; unfold min_rating_of; simp [he]
  · intro dests h
    rw [min_rating_filter, List.filter_eq_self]
    intro p hp
    simpa using h p hp

/-- C10 witness: with `min_rating = 4` the sentinel record is removed and
the non-numeric `min_rating` value `[1]` collapses to `0`. -/
theorem min_rating_filter_correct_witness :
    ({ name := some "No places found" } : Place) ∉
      min_rating_filter [{ name := some "No places found" }] 4 ∧
    min_rating_of (some (.arr [.num 1])) = 0 := by
  constructor
  · exact min_rating_filter_correct.2.2.2.1 _ 4 _ (by norm_num) (Or.inl rfl)
  · exact min_rating_filter_correct.2.2.2.2.2.1 (.arr [.num 1]) .typeError rfl

/-- C7: `get_nearby_places` maps the lowercased preference through the
fixed table (default `"tourist_attraction"`), keeps exactly the results
with rating `>= 4.0` tagged with the preference as category, and returns
a one-element sentinel list — never an empty list — when nothing
qualifies or the upstream call failed. -/
theorem get_nearby_places_correct (preference : String) :
    (placeTypeFor "temple" = "hindu_temple" ∧ placeTypeFor "mosque" = "mosque" ∧
     placeTypeFor "church" = "church" ∧
     placeTypeFor "historical" = "museum, landmark, heritage_site" ∧
     placeTypeFor "nature" = "park, zoo, botanical_garden, national_park" ∧
     placeTypeFor "adventure" = "amusement_park, hiking_area, theme_park" ∧
     placeTypeFor "food" = "restaurant, cafe, bakery, bar" ∧
     placeTypeFor "shopping" = "shopping_mall, flea_market, supermarket" ∧
     placeTypeFor "beach" = "beach, waterfront" ∧
     placeTypeFor "nightlife" = "night_club, casino, bar" ∧
     placeTypeFor "wellness" = "spa, wellness_center, yoga_studio" ∧
     placeTypeFor "family" = "aquarium, amusement_park, playground, kids_activity" ∧
     placeTypeFor "TEMPLE" = "hindu_temple" ∧ placeTypeFor "" = "tourist_attraction") ∧
    (lowerStr preference ∉ place_types.map Prod.fst →
      placeTypeFor preference = "tourist_attraction") ∧
    (get_nearby_places preference (.error ()) = [{ name := some "Error fetching places" }]) ∧
    (∀ results : List ApiPlace, (∀ pl ∈ results, pl.rating.getD 0 < 4) →
      get_nearby_places preference (.ok results) = [{ name := some "No places found" }]) ∧
    (∀ results : List ApiPlace, get_nearby_places preference (.ok results) ≠ []) ∧
    (∀ (results : List ApiPlace) (p : Place),
      p ∈ get_nearby_places preference (.ok results) →
      p.name = some "No places found" ∨
      (∃ pl ∈ results, 4 ≤ pl.rating.getD 0 ∧ p = apiToPlace preference pl ∧
        p.category = some preference ∧ p.rating = some (.num (pl.rating.getD 0)))) := by
  refine ⟨by decide, ?_, rfl, ?_, ?_, ?_⟩
  · intro h
    unfold placeTypeFor
    have hnone : place_types.find? (fun e => e.1 == lowerStr preference) = none := by
      rw [List.find?_eq_none]
      intro x hx
      simp only [beq_iff_eq]
      intro hcontra
      exact h (hcontra ▸ List.mem_map_of_mem Prod.fst hx)
    rw [hnone]
    rfl
  · intro results hlow
    have hq : qualifyingPlaces preference results = [] := by
      rw [qualifyingPlaces, List.filterMap_eq_nil_iff]
      intro pl hpl
      rw [if_neg (not_le.mpr (hlow pl hpl))]
    simp only [get_nearby_places, hq]
    rfl
  · intro results
    simp only [get_nearby_places]
    by_cases h : (qualifyingPlaces preference results).isEmpty
    · rw [if_pos h]
      exact List.cons_ne_nil _ _
    · rw [if_neg h]
      intro hc
      exact h (by rw [hc]; rfl)
  · intro results p hp
    simp only [get_nearby_places] at hp
    by_cases h : (qualifyingPlaces preference results).isEmpty
    · rw [if_pos h] at hp
      left
      rw [List.mem_singleton] at hp
      rw [hp]
    · rw [if_neg h] at hp
      rw [qualifyingPlaces, List.mem_filterMap] at hp
      right
      obtain ⟨pl, hpl, hif⟩ := hp
      by_cases hr : (4 : ℚ) ≤ pl.rating.getD 0
      · rw [if_pos hr] at hif
        obtain rfl := Option.some.inj hif
        exact ⟨pl, hpl, hr, rfl, rfl, rfl⟩
      · rw [if_neg hr] at hif
        exact absurd hif (Option.noConfusion)

/-- C7 witness: one result with rating 4.5 and one with 3.5 yield exactly
the 4.5 record tagged with the preference; an all-low result list yields
the "No places found" sentinel; an upstream error yields the error
sentinel. -/
theorem get_nearby_places_correct_witness :
    (∀ p : Place, p ∈ get_nearby_places "food" (.ok [⟨"A", 1, 2, some (9 / 2), some 100⟩]) →
      p.name = some "No places found" ∨
      (∃ pl ∈ [(⟨"A", 1, 2, some (9 / 2), some 100⟩ : ApiPlace)], 4 ≤ pl.rating.getD 0 ∧
        p = apiToPlace "food" pl ∧ p.category = some "food" ∧
        p.rating = some (.num (pl.rating.getD 0)))) ∧
    get_nearby_places "food" (.ok [⟨"B", 1, 2, some (7 / 2), none⟩]) =
      [{ name := some "No places found" }] ∧
    get_nearby_places "food" (.error ()) = [{ name := some "Error fetching places" }] := by
  refine ⟨fun p hp => (get_nearby_places_correct "food").2.2.2.2.2 _ p hp, ?_, ?_⟩
  · refine (get_nearby_places_correct "food").2.2.2.1 _ ?_
    intro pl hpl
    rw [List.mem_singleton] at hpl
    rw [hpl]
    norm_num
  · exact (get_nearby_places_correct "food").2.2.1

theorem computePrefList_error_eq (p : JVal) (e : PyErr) :
    computePrefList p = .error e → e = .attributeError := by
  cases p <;> intro h <;> simp [computePrefList] at h <;> try exact h.symm

/-- C8 counterexample: a request whose `max_distance` is the JSON array
`[5]` (truthy, non-numeric, non-string) makes `float(max_distance)` raise
an uncaught `TypeError`, so `max_distance` parsing can raise out of the
handler. -/
theorem parse_max_distance_ce :
    recommend_early
      (some [("city", .str "Pune"), ("preferences", .str "food"),
             ("max_distance", .arr [.num 5])])
      (fun _ => some (0, 0)) = .uncaught .typeError := rfl

/-- C8 amended: a non-numeric `max_distance` string is silently ignored
(no filter), as are all falsy values; numbers and booleans convert; but a
truthy array or object value raises an uncaught `TypeError` — the only
`TypeError` escape point of the handler. -/
theorem parse_max_distance_spec :
    (parse_max_distance none = .ok none) ∧
    (∀ s, parseFloat? s = none → parse_max_distance (some (.str s)) = .ok none) ∧
    (∀ s q, parseFloat? s = some q → truthy (.str s) = true →
      parse_max_distance (some (.str s)) = .ok (some q)) ∧
    (∀ q : ℚ, q ≠ 0 → parse_max_distance (some (.num q)) = .ok (some q)) ∧
    (parse_max_distance (some (.num 0)) = .ok none) ∧
    (parse_max_distance (some (.bool true)) = .ok (some 1)) ∧
    (parse_max_distance (some (.bool false)) = .ok none) ∧
    (parse_max_distance (some .null) = .ok none) ∧
    (∀ l, l ≠ [] → parse_max_distance (some (.arr l)) = .error .typeError) ∧
    (∀ kvs, kvs ≠ [] → parse_max_distance (some (.obj kvs)) = .error .typeError) ∧
    (parse_max_distance (some (.arr [])) = .ok none) ∧
    (∀ (data : List (String × JVal)) (g : JVal → Option (ℚ × ℚ)),
      recommend_early (some data) g = .uncaught .typeError ↔
        data ≠ [] ∧ parse_max_distance (jget data "max_distance") = .error .typeError) := by
  refine ⟨rfl, ?_, ?_, ?_, by rfl, rfl, rfl, rfl, ?_, ?_, rfl, ?_⟩
  · intro s hs
    by_cases he : truthy (.str s)
    · simp [parse_max_distance, he, pyFloat, hs]
    · simp [parse_max_distance, he]
  · intro s q hq ht
    simp [parse_max_distance, ht, pyFloat, hq]
  · intro q hq
    simp [parse_max_distance, truthy, hq, pyFloat]
  · intro l hl
    cases l with
    | nil => exact absurd rfl hl
    | cons a t => rfl
  · intro kvs hk
    cases kvs with
    | nil => exact absurd rfl hk
    | cons a t => rfl
  · intro data g
    have hre : recommend_early (some data) g = recommend_withData data g := rfl
    rw [hre]
    constructor
    · intro h
      unfold recommend_withData at h
      by_cases hd : data.isEmpty
      · rw [if_pos hd] at h
        exact absurd h (by simp)
      · rw [if_neg hd] at h
        refine ⟨fun hc => hd (by rw [hc]; rfl), ?_⟩
        cases hpm : parse_max_distance (jget data "max_distance") with
        | error e =>
          rw [hpm] at h
          simp only [RecResult.uncaught.injEq] at h
          rw [h]
        | ok md =>
          rw [hpm] at h
          simp only at h
          by_cases htc : (!truthyOpt (jget data "city") ||
              !truthyOpt (jget data "preferences")) = true
          · rw [if_pos htc] at h
            exact absurd h (by simp)
          · rw [if_neg htc] at h
            cases hcp : computePrefList ((jget data "preferences").getD .null) with
            | error e =>
              rw [hcp] at h
              simp only [RecResult.uncaught.injEq] at h
              have he := computePrefList_error_eq _ _ hcp
              rw [he] at h
              exact absurd h (by decide)
            | ok pl =>
              rw [hcp] at h
              simp only at h
              cases hg : g ((jget data "city").getD .null) with
              | none => rw [hg] at h; exact absurd h (by simp)
              | some loc => rw [hg] at h; exact absurd h (by simp)
    · intro ⟨hne, hpm⟩
      unfold recommend_withData
      rw [if_neg (fun hc => hne (List.isEmpty_iff.mp hc)), hpm]

/-- C8 witness: the parsing characterisation evaluated at concrete
values: the string `"abc"` is ignored, `"12.5"` converts, `7` converts,
and a truthy array raises. -/
theorem parse_max_distance_spec_witness :
    parse_max_distance (some (.str "abc")) = .ok none ∧
    parse_max_distance (some (.str "12.5")) = .ok (some (25 / 2)) ∧
    parse_max_distance (some (.num 7)) = .ok (some 7) ∧
    parse_max_distance (some (.arr [.num 5])) = .error .typeError ∧
    (recommend_early (some [("max_distance", .obj [("a", .num 1)])]) (fun _ => none) =
        .uncaught .typeError ↔
      ([("max_distance", .obj [("a", .num 1)])] : List (String × JVal)) ≠ [] ∧
        parse_max_distance (jget [("max_distance", .obj [("a", .num 1)])] "max_distance") =
          .error .typeError) := by
  refine ⟨parse_max_distance_spec.2.1 "abc" rfl, ?_, ?_, ?_, ?_⟩
  · refine (parse_max_distance_spec.2.2.1 "12.5" (25 / 2) ?_ rfl)
    simp [parseFloat?, parseSign, parseMantissa, parseExp, digitsVal]
    norm_num
  · exact parse_max_distance_spec.2.2.2.1 7 (by norm_num)
  · exact parse_max_distance_spec.2.2.2.2.2.2.2.2.1 [.num 5] (by simp)
  · exact parse_max_distance_spec.2.2.2.2.2.2.2.2.2.2.2
      [("max_distance", .obj [("a", .num 1)])] (fun _ => none)

/-- C6 counterexample: with `city` missing but `max_distance` set to the
truthy array `[1]`, the handler raises an uncaught `TypeError` while
parsing `max_distance` (which the code does before the city/preferences
check), instead of returning the 400 response the claim promises for a
missing city. -/
theorem recommend_early_400_ce :
    recommend_early
      (some [("preferences", .str "food"), ("max_distance", .arr [.num 1])])
      (fun _ => none) = .uncaught .typeError ∧
    recommend_early
      (some [("preferences", .str "food"), ("max_distance", .arr [.num 1])])
      (fun _ => none) ≠
      .badRequest "Provide \x27city\x27 and \x27preferences\x27." := by
  refine ⟨rfl, ?_⟩
  intro h
  have h1 : recommend_early
      (some [("preferences", .str "food"), ("max_distance", .arr [.num 1])])
      (fun _ => none) = .uncaught .typeError := rfl
  rw [h1] at h
  exact RecResult.noConfusion h

/-- C6 amended: the three 400 responses hold as claimed — missing body,
missing/empty city or preferences, unresolvable city (each produced
before any place/weather/event fetching and for every geocoder) —
provided the earlier `max_distance` parsing does not itself raise (see
the C8 analysis). -/
theorem recommend_early_400 (g : JVal → Option (ℚ × ℚ)) :
    (recommend_early none g = .badRequest "Missing JSON body") ∧
    (recommend_early (some []) g = .badRequest "Missing JSON body") ∧
    (∀ data : List (String × JVal), data ≠ [] →
      (∃ md, parse_max_distance (jget data "max_distance") = .ok md) →
      (truthyOpt (jget data "city") = false ∨
        truthyOpt (jget data "preferences") = false) →
      recommend_early (some data) g =
        .badRequest "Provide \x27city\x27 and \x27preferences\x27.") ∧
    (∀ (data : List (String × JVal)) (city prefs : JVal), data ≠ [] →
      (∃ md, parse_max_distance (jget data "max_distance") = .ok md) →
      jget data "city" = some city → truthy city = true →
      jget data "preferences" = some prefs → truthy prefs = true →
      (∃ pl, computePrefList prefs = .ok pl) →
      g city = none →
      recommend_early (some data) g =
        .badRequest "Invalid city name or location not found.") := by
  refine ⟨rfl, rfl, ?_, ?_⟩
  · intro data hne ⟨md, hmd⟩ htc
    have hre : recommend_early (some data) g = recommend_withData data g := rfl
    rw [hre]
    unfold recommend_withData
    rw [if_neg (fun hc => hne (List.isEmpty_iff.mp hc)), hmd]
    dsimp only
    rw [if_pos (by rcases htc with h | h <;> simp [h])]
  · intro data city prefs hne ⟨md, hmd⟩ hcity htcity hprefs htprefs ⟨pl, hpl⟩ hg
    have hre : recommend_early (some data) g = recommend_withData data g := rfl
    rw [hre]
    unfold recommend_withData
    rw [if_neg (fun hc => hne (List.isEmpty_iff.mp hc)), hmd]
    dsimp only
    rw [if_neg (by simp [truthyOpt, hcity, hprefs, htcity, htprefs])]
    rw [hprefs]
    simp only [Option.getD_some]
    rw [hpl]
    dsimp only
    rw [hcity]
    simp only [Option.getD_some]
    rw [hg]

/-- C6 witness: a body with only a city gets the "Provide ..." 400, and a
body whose city no geocoder resolves gets the "Invalid city ..." 400. -/
theorem recommend_early_400_witness :
    recommend_early (some [("city", .str "Pune")]) (fun _ => none) =
      .badRequest "Provide \x27city\x27 and \x27preferences\x27." ∧
    recommend_early (some [("city", .str "Nowhere"), ("preferences", .str "food")])
      (fun _ => none) = .badRequest "Invalid city name or location not found." := by
  constructor
  · exact (recommend_early_400 (fun _ => none)).2.2.1 [("city", .str "Pune")]
      (by simp) ⟨none, rfl⟩ (Or.inr rfl)
  · exact (recommend_early_400 (fun _ => none)).2.2.2
      [("city", .str "Nowhere"), ("preferences", .str "food")]
      (.str "Nowhere") (.str "food") (by simp) ⟨none, rfl⟩ rfl rfl rfl rfl
      ⟨["food"], rfl⟩ rfl

/-- How `merge_duplicate_places` treats two records whose coordinates
round to the same key: the incumbent survives unless the newcomer's
rating is numeric and strictly exceeds the incumbent's rating with `0`
substituted for a missing one; a numeric newcomer rating meeting a
non-numeric incumbent rating raises `TypeError`. -/
theorem merge_pair (p1 p2 : Place) (hkey : placeKey p2 = placeKey p1) :
    (p2.rating = none → merge_duplicate_places [p1, p2] = .ok [p1]) ∧
    (∀ r2, p2.rating = some r2 → toNumQ r2 = none →
      merge_duplicate_places [p1, p2] = .ok [p1]) ∧
    (∀ r2 q2, p2.rating = some r2 → toNumQ r2 = some q2 →
      (p1.rating = none →
        merge_duplicate_places [p1, p2] = .ok (if 0 < q2 then [p2] else [p1])) ∧
      (∀ r1 q1, p1.rating = some r1 → toNumQ r1 = some q1 →
        merge_duplicate_places [p1, p2] = .ok (if q1 < q2 then [p2] else [p1])) ∧
      (∀ r1, p1.rating = some r1 → toNumQ r1 = none →
        merge_duplicate_places [p1, p2] = .error .typeError)) := by
  have hunfold : merge_duplicate_places [p1, p2] =
      (mergeStep [(placeKey p1, p1)] p2 >>= fun s2 => pure s2).map
        (fun acc => acc.map Prod.snd) := rfl
  have hfind : List.find? (fun e => decide (e.1 = placeKey p2)) [(placeKey p1, p1)] =
      some (placeKey p1, p1) :=
    List.find?_cons_of_pos _ (decide_eq_true hkey.symm)
  have hupd : (if placeKey p1 = placeKey p2 then (placeKey p2, p2) else (placeKey p1, p1)) =
      (placeKey p2, p2) := if_pos hkey.symm
  refine ⟨?_, ?_, ?_⟩
  · intro h2
    have hs : mergeStep [(placeKey p1, p1)] p2 = .ok [(placeKey p1, p1)] := by
      unfold mergeStep
      dsimp only
      rw [hfind, h2]
    rw [hunfold, hs]
    rfl
  · intro r2 h2 hnum
    have hs : mergeStep [(placeKey p1, p1)] p2 = .ok [(placeKey p1, p1)] := by
      unfold mergeStep
      dsimp only
      rw [hfind, h2]
      dsimp only
      rw [if_neg (by rw [hnum]; exact Bool.false_ne_true)]
    rw [hunfold, hs]
    rfl
  · intro r2 q2 h2 hq2
    refine ⟨?_, ?_, ?_⟩
    · intro h1
      have hgt : pyGtNum r2 ((p1.rating).getD (.num 0)) = some (decide (0 < q2)) := by
        rw [h1]
        unfold pyGtNum
        rw [hq2]
        rfl
      cases hd : decide ((0 : ℚ) < q2) with
      | true =>
        have hs : mergeStep [(placeKey p1, p1)] p2 = .ok [(placeKey p2, p2)] := by
          unfold mergeStep
          dsimp only
          rw [hfind, h2]
          dsimp only
          rw [if_pos (by rw [hq2]; rfl), hgt, hd]
          dsimp only [List.map_cons, List.map_nil]
          rw [hupd]
        rw [hunfold, hs, if_pos (of_decide_eq_true hd)]
        rfl
      | false =>
        have hs : mergeStep [(placeKey p1, p1)] p2 = .ok [(placeKey p1, p1)] := by
          unfold mergeStep
          dsimp only
          rw [hfind, h2]
          dsimp only
          rw [if_pos (by rw [hq2]; rfl), hgt, hd]
        rw [hunfold, hs, if_neg (of_decide_eq_false hd)]
        rfl
    · intro r1 q1 h1 hq1
      have hgt : pyGtNum r2 ((p1.rating).getD (.num 0)) = some (decide (q1 < q2)) := by
        rw [h1]
        unfold pyGtNum
        rw [hq2]
        dsimp only [Option.getD_some]
        rw [hq1]
      cases hd : decide (q1 < q2) with
      | true =>
        have hs : mergeStep [(placeKey p1, p1)] p2 = .ok [(placeKey p2, p2)] := by
          unfold mergeStep
          dsimp only
          rw [hfind, h2]
          dsimp only
          rw [if_pos (by rw [hq2]; rfl), hgt, hd]
          dsimp only [List.map_cons, List.map_nil]
          rw [hupd]
        rw [hunfold, hs, if_pos (of_decide_eq_true hd)]
        rfl
      | false =>
        have hs : mergeStep [(placeKey p1, p1)] p2 = .ok [(placeKey p1, p1)] := by
          unfold mergeStep
          dsimp only
          rw [hfind, h2]
          dsimp only
          rw [if_pos (by rw [hq2]; rfl), hgt, hd]
        rw [hunfold, hs, if_neg (of_decide_eq_false hd)]
        rfl
    · intro r1 h1 hn1
      have hgt : pyGtNum r2 ((p1.rating).getD (.num 0)) = none := by
        rw [h1]
        unfold pyGtNum
        rw [hq2]
        dsimp only [Option.getD_some]
        rw [hn1]
      have hs : mergeStep [(placeKey p1, p1)] p2 = .error .typeError := by
        unfold mergeStep
        dsimp only
        rw [hfind, h2]
        dsimp only
        rw [if_pos (by rw [hq2]; rfl), hgt]
      rw [hunfold, hs]
      rfl

/-- One `merge_duplicate_places` iteration preserves: keys are pairwise
distinct, and every stored record's own rounded key is its mapping key. -/
theorem mergeStep_preserves (acc acc1 : List ((ℚ × ℚ) × Place)) (p : Place)
    (hs : mergeStep acc p = .ok acc1)
    (hnd : (acc.map Prod.fst).Nodup) (hinv : ∀ e ∈ acc, placeKey e.2 = e.1) :
    (acc1.map Prod.fst).Nodup ∧ (∀ e ∈ acc1, placeKey e.2 = e.1) := by
  unfold mergeStep at hs
  revert hs
  dsimp only
  cases hfind : acc.find? (fun e => decide (e.1 = placeKey p)) with
  | some entry =>
    dsimp only
    intro hs
    have hacc1 : acc1 = acc ∨
        acc1 = acc.map (fun e => if e.1 = placeKey p then (placeKey p, p) else e) := by
      revert hs
      cases hr : p.rating with
      | none => intro hs; exact Or.inl (Except.ok.inj hs).symm
      | some r =>
        dsimp only
        by_cases hn : (toNumQ r).isSome
        · rw [if_pos hn]
          cases hg : pyGtNum r (entry.2.rating.getD (.num 0)) with
          | none => intro hs; exact absurd hs (by simp)
          | some b =>
            cases b with
            | true => intro hs; exact Or.inr (Except.ok.inj hs).symm
            | false => intro hs; exact Or.inl (Except.ok.inj hs).symm
        · rw [if_neg hn]
          intro hs
          exact Or.inl (Except.ok.inj hs).symm
    rcases hacc1 with rfl | rfl
    · exact ⟨hnd, hinv⟩
    · constructor
      · have hkeys : (acc.map (fun e =>
            if e.1 = placeKey p then (placeKey p, p) else e)).map Prod.fst =
              acc.map Prod.fst := by
          rw [List.map_map]
          refine List.map_congr_left ?_
          intro e _
          by_cases he : e.1 = placeKey p
          · simp [he]
          · simp [he]
        rw [hkeys]
        exact hnd
      · intro e he
        rw [List.mem_map] at he
        obtain ⟨e0, he0, heq⟩ := he
        by_cases hk : e0.1 = placeKey p
        · rw [if_pos hk] at heq
          rw [← heq]
        · rw [if_neg hk] at heq
          rw [← heq]
          exact hinv e0 he0
  | none =>
    dsimp only
    intro hs
    have hacc1 : acc1 = acc ++ [(placeKey p, p)] := (Except.ok.inj hs).symm
    subst hacc1
    have hnotmem : placeKey p ∉ acc.map Prod.fst := by
      intro hmem
      rw [List.mem_map] at hmem
      obtain ⟨e, hee, heq⟩ := hmem
      have hne := List.find?_eq_none.mp hfind e hee
      simp only [decide_eq_true_eq] at hne
      exact hne heq
    constructor
    · rw [List.map_append, List.nodup_append]
      refine ⟨hnd, List.nodup_singleton _, ?_⟩
      intro a ha hb
      simp only [List.map_cons, List.map_nil, List.mem_singleton] at hb
      exact hnotmem (hb ▸ ha)
    · intro e he
      rw [List.mem_append] at he
      rcases he with he | he
      · exact hinv e he
      · rw [List.mem_singleton] at he
        rw [he]

/-- Invariant of the whole `merge_duplicate_places` loop. -/
theorem mergeAcc_invariant :
    ∀ (places : List Place) (acc acc' : List ((ℚ × ℚ) × Place)),
      List.foldlM mergeStep acc places = .ok acc' →
      (acc.map Prod.fst).Nodup → (∀ e ∈ acc, placeKey e.2 = e.1) →
      (acc'.map Prod.fst).Nodup ∧ (∀ e ∈ acc', placeKey e.2 = e.1) := by
  intro places
  induction places with
  | nil =>
    intro acc acc' hfold hnd hinv
    have hacc : acc = acc' := Except.ok.inj hfold
    rw [← hacc]
    exact ⟨hnd, hinv⟩
  | cons p ps ih =>
    intro acc acc' hfold hnd hinv
    have hstep : List.foldlM mergeStep acc (p :: ps) =
        mergeStep acc p >>= fun a => List.foldlM mergeStep a ps := rfl
    rw [hstep] at hfold
    cases hs : mergeStep acc p with
    | error e =>
      rw [hs] at hfold
      exact absurd hfold (by simp [Bind.bind, Except.bind])
    | ok acc1 =>
      rw [hs] at hfold
      have hkeep := mergeStep_preserves acc acc1 p hs hnd hinv
      exact ih acc1 acc' hfold hkeep.1 hkeep.2

/-- A record at (1,1) with no rating at all. -/
def mergeP1 : Place := { name := some "first", lat := some 1, lng := some 1 }

/-- A record at (1,1) rated 4.6. -/
def mergeP2 : Place :=
  { name := some "second", lat := some 1, lng := some 1, rating := some (.num (23 / 5)) }

/-- C2 counterexample: a first record without a rating followed by one
rated 4.6 at the same key keeps the **second** record (the code compares
against a default of 0), not the first-encountered one as the claim's
keep-first rule demands. -/
theorem merge_duplicate_places_ce :
    merge_duplicate_places [mergeP1, mergeP2] = .ok [mergeP2] ∧
    merge_duplicate_places [mergeP1, mergeP2] ≠ .ok [mergeP1] := by
  have h := ((merge_pair mergeP1 mergeP2 rfl).2.2 (.num (23 / 5)) (23 / 5) rfl rfl).1 rfl
  rw [if_pos (by norm_num)] at h
  refine ⟨h, ?_⟩
  intro hcontra
  have h2 : Except.ok (ε := PyErr) [mergeP2] = Except.ok [mergeP1] := h ▸ hcontra
  have h3 : mergeP2 = mergeP1 := (List.cons.inj (Except.ok.inj h2)).1
  have h4 : mergeP2.name = mergeP1.name := by rw [h3]
  simp [mergeP1, mergeP2] at h4

/-- C2 amended: `merge_duplicate_places` keeps at most one record per
4-decimal rounded coordinate key; at one key, the strictly higher rating
wins when both ratings are numeric and the first record is kept on
non-numeric or missing *newcomer* ratings; but a missing incumbent rating
counts as 0 (so a later numeric rating > 0 replaces it), and a numeric
newcomer rating meeting a non-numeric incumbent rating raises
`TypeError`. -/
theorem merge_duplicate_places_correct :
    (∀ (places res : List Place), merge_duplicate_places places = .ok res →
      (res.map placeKey).Nodup) ∧
    (∀ p1 p2 : Place, placeKey p2 = placeKey p1 →
      (∀ r1 q1 r2 q2, p1.rating = some r1 → toNumQ r1 = some q1 →
        p2.rating = some r2 → toNumQ r2 = some q2 →
        merge_duplicate_places [p1, p2] = .ok (if q1 < q2 then [p2] else [p1])) ∧
      (p2.rating = none → merge_duplicate_places [p1, p2] = .ok [p1]) ∧
      (∀ r2, p2.rating = some r2 → toNumQ r2 = none →
        merge_duplicate_places [p1, p2] = .ok [p1]) ∧
      (∀ r2 q2, p2.rating = some r2 → toNumQ r2 = some q2 → p1.rating = none →
        merge_duplicate_places [p1, p2] = .ok (if 0 < q2 then [p2] else [p1])) ∧
      (∀ r1 r2 q2, p1.rating = some r1 → toNumQ r1 = none →
        p2.rating = some r2 → toNumQ r2 = some q2 →
        merge_duplicate_places [p1, p2] = .error .typeError)) := by
  constructor
  · intro places res hok
    unfold merge_duplicate_places at hok
    cases hfold : List.foldlM mergeStep [] places with
    | error e => rw [hfold] at hok; exact absurd hok (by simp [Except.map])
    | ok acc' =>
      rw [hfold] at hok
      have hres : res = acc'.map Prod.snd := (Except.ok.inj hok).symm
      have hinv := mergeAcc_invariant places [] acc' hfold (by simp) (by simp)
      have hmap : res.map placeKey = acc'.map Prod.fst := by
        rw [hres, List.map_map]
        exact List.map_congr_left (fun e he => hinv.2 e he)
      rw [hmap]
      exact hinv.1
  · intro p1 p2 hkey
    have hp := merge_pair p1 p2 hkey
    refine ⟨?_, hp.1, hp.2.1, ?_, ?_⟩
    · intro r1 q1 r2 q2 h1 hq1 h2 hq2
      exact ((hp.2.2 r2 q2 h2 hq2).2.1) r1 q1 h1 hq1
    · intro r2 q2 h2 hq2 h1
      exact (hp.2.2 r2 q2 h2 hq2).1 h1
    · intro r1 r2 q2 h1 hn1 h2 hq2
      exact (hp.2.2 r2 q2 h2 hq2).2.2 r1 h1 hn1

/-- A record at (1,1) rated 4.2. -/
def mergeA : Place :=
  { name := some "a", lat := some 1, lng := some 1, rating := some (.num (21 / 5)) }

/-- A record at (1,1) rated 4.6. -/
def mergeB : Place :=
  { name := some "b", lat := some 1, lng := some 1, rating := some (.num (23 / 5)) }

/-- C2 witness: ratings 4.2 and 4.6 at one key keep only the 4.6 record in
either order, and equal ratings keep the first-encountered record. -/
theorem merge_duplicate_places_correct_witness :
    merge_duplicate_places [mergeA, mergeB] = .ok [mergeB] ∧
    merge_duplicate_places [mergeB, mergeA] = .ok [mergeB] ∧
    merge_duplicate_places [mergeB, { mergeA with rating := mergeB.rating }] =
      .ok [mergeB] := by
  refine ⟨?_, ?_, ?_⟩
  · have h := (merge_duplicate_places_correct.2 mergeA mergeB rfl).1
      (.num (21 / 5)) (21 / 5) (.num (23 / 5)) (23 / 5) rfl rfl rfl rfl
    rw [if_pos (by norm_num)] at h
    exact h
  · have h := (merge_duplicate_places_correct.2 mergeB mergeA rfl).1
      (.num (23 / 5)) (23 / 5) (.num (21 / 5)) (21 / 5) rfl rfl rfl rfl
    rw [if_neg (by norm_num)] at h
    exact h
  · have h := (merge_duplicate_places_correct.2 mergeB
      { mergeA with rating := mergeB.rating } rfl).1
      (.num (23 / 5)) (23 / 5) (.num (23 / 5)) (23 / 5) rfl rfl rfl rfl
    rw [if_neg (by norm_num)] at h
    exact h

instance keyRelTotal {α : Type} (k : α → ℚ) : IsTotal α (fun a b => k b ≤ k a) :=
  ⟨fun a b => le_total (k b) (k a)⟩

instance keyRelTrans {α : Type} (k : α → ℚ) : IsTrans α (fun a b => k b ≤ k a) :=
  ⟨fun _ _ _ h1 h2 => le_trans h2 h1⟩

theorem orderedInsert_filter_self {α : Type} (k : α → ℚ) (x : α) (l : List α) :
    (List.orderedInsert (fun a b => k b ≤ k a) x l).filter (fun a => decide (k a = k x)) =
      x :: l.filter (fun a => decide (k a = k x)) := by
  induction l with
  | nil => simp [List.orderedInsert]
  | cons y ys ih =>
    by_cases h : k y ≤ k x
    · simp [List.orderedInsert, h]
    · have hne : ¬ (k y = k x) := fun he => h (le_of_eq he)
      simp [List.orderedInsert, h, hne, ih]

theorem orderedInsert_filter_other {α : Type} (k : α → ℚ) (x : α) (c : ℚ) (hc : ¬ (k x = c))
    (l : List α) :
    (List.orderedInsert (fun a b => k b ≤ k a) x l).filter (fun a => decide (k a = c)) =
      l.filter (fun a => decide (k a = c)) := by
  induction l with
  | nil => simp [List.orderedInsert, hc]
  | cons y ys ih =>
    by_cases h : k y ≤ k x
    · simp [List.orderedInsert, h, hc]
    · simp only [List.orderedInsert, if_neg h]
      by_cases hy : k y = c
      · simp [List.filter_cons, hy, ih]
      · simp [List.filter_cons, hy, ih]

/-- Stability of the descending insertion sort: the records at any fixed
key value keep their original relative order. -/
theorem insertionSort_filter_key {α : Type} (k : α → ℚ) (l : List α) (c : ℚ) :
    (List.insertionSort (fun a b => k b ≤ k a) l).filter (fun a => decide (k a = c)) =
      l.filter (fun a => decide (k a = c)) := by
  induction l with
  | nil => rfl
  | cons x xs ih =>
    show (List.orderedInsert _ x (List.insertionSort _ xs)).filter _ = _
    by_cases hx : k x = c
    · subst hx
      rw [orderedInsert_filter_self, ih]
      simp
    · rw [orderedInsert_filter_other k x c hx, ih]
      simp [hx]

/-- Two permutations of the same records that are both sorted descending
by a key without duplicates are equal: distinct keys pin the order. -/
theorem sorted_perm_nodupkeys_eq {α : Type} (k : α → ℚ) :
    ∀ l1 l2 : List α, List.Perm l1 l2 → l1.Pairwise (fun a b => k b ≤ k a) →
      l2.Pairwise (fun a b => k b ≤ k a) → (l1.map k).Nodup → l1 = l2 := by
  intro l1
  induction l1 with
  | nil =>
    intro l2 hperm _ _ _
    exact (List.Perm.nil_eq hperm)
  | cons a t1 ih =>
    intro l2 hperm hp1 hp2 hnd
    cases l2 with
    | nil => exact absurd hperm.symm.nil_eq (by simp)
    | cons b t2 =>
      have hab : a = b := by
        by_contra hne
        have hamem : a ∈ b :: t2 := hperm.mem_iff.mp (List.mem_cons_self a t1)
        have hat2 : a ∈ t2 := by
          rcases List.mem_cons.mp hamem with h | h
          · exact absurd h hne
          · exact h
        have hbmem : b ∈ a :: t1 := hperm.mem_iff.mpr (List.mem_cons_self b t2)
        have hbt1 : b ∈ t1 := by
          rcases List.mem_cons.mp hbmem with h | h
          · exact absurd h.symm hne
          · exact h
        have h1 : k a ≤ k b := List.rel_of_pairwise_cons hp2 hat2
        have h2 : k b ≤ k a := List.rel_of_pairwise_cons hp1 hbt1
        rw [List.map_cons, List.nodup_cons] at hnd
        exact hnd.1 ((le_antisymm h1 h2) ▸ List.mem_map_of_mem k hbt1)
      subst hab
      have hperm2 : List.Perm t1 t2 := hperm.cons_inv
      rw [List.map_cons, List.nodup_cons] at hnd
      rw [ih t2 hperm2 hp1.of_cons hp2.of_cons hnd.2]

/-- C5: ranking is a stable descending sort — by composite score in the
default mode (every record first annotated with its score) and by raw
rating (non-numeric ratings as 0) in "rating" mode; the output is a
permutation, sorted descending, records with equal keys keep their
original relative order, and with pairwise distinct keys the sorted
order is the unique one. -/
theorem ranking_correct (destinations : List Place) (prefs : List String) :
    (List.Perm (rank_destinations destinations prefs) (destinations.map (withScore prefs))) ∧
    (rank_destinations destinations prefs).Pairwise (fun a b => scoreKey b ≤ scoreKey a) ∧
    (∀ p : Place, scoreKey (withScore prefs p) = calculate_score p prefs) ∧
    (∀ c : ℚ, (rank_destinations destinations prefs).filter (fun p => decide (scoreKey p = c)) =
      (destinations.map (withScore prefs)).filter (fun p => decide (scoreKey p = c))) ∧
    (∀ l' : List Place, List.Perm l' (rank_destinations destinations prefs) →
      l'.Pairwise (fun a b => scoreKey b ≤ scoreKey a) →
      ((destinations.map (withScore prefs)).map scoreKey).Nodup →
      l' = rank_destinations destinations prefs) ∧
    (List.Perm (sortByRating destinations) destinations) ∧
    (sortByRating destinations).Pairwise (fun a b => ratingKey b ≤ ratingKey a) ∧
    (∀ (p : Place) (q : ℚ), p.rating = some (.num q) → ratingKey p = q) ∧
    (∀ (p : Place) (v : JVal), p.rating = some v → toNumQ v = none → ratingKey p = 0) ∧
    (∀ c : ℚ, (sortByRating destinations).filter (fun p => decide (ratingKey p = c)) =
      destinations.filter (fun p => decide (ratingKey p = c))) ∧
    (∀ l' : List Place, List.Perm l' (sortByRating destinations) →
      l'.Pairwise (fun a b => ratingKey b ≤ ratingKey a) →
      (destinations.map ratingKey).Nodup →
      l' = sortByRating destinations) := by
  refine ⟨List.perm_insertionSort _ _, List.sorted_insertionSort _ _, ?_, ?_, ?_,
    List.perm_insertionSort _ _, List.sorted_insertionSort _ _, ?_, ?_, ?_, ?_⟩
  · intro p; rfl
  · intro c; exact insertionSort_filter_key scoreKey _ c
  · intro l' hperm hp hnd
    refine sorted_perm_nodupkeys_eq scoreKey l' (rank_destinations destinations prefs)
      hperm hp (List.sorted_insertionSort _ _) ?_
    have hnd2 : ((rank_destinations destinations prefs).map scoreKey).Nodup :=
      ((List.perm_insertionSort _ _).map scoreKey).nodup_iff.mpr hnd
    exact (hperm.map scoreKey).nodup_iff.mpr hnd2
  · intro p q h; unfold ratingKey; rw [h]; rfl
  · intro p v h hn; unfold ratingKey; rw [h]; simp [hn]
  · intro c; exact insertionSort_filter_key ratingKey _ c
  · intro l' hperm hp hnd
    refine sorted_perm_nodupkeys_eq ratingKey l' (sortByRating destinations)
      hperm hp (List.sorted_insertionSort _ _) ?_
    have hnd2 : ((sortByRating destinations).map ratingKey).Nodup :=
      ((List.perm_insertionSort _ _).map ratingKey).nodup_iff.mpr hnd
    exact (hperm.map ratingKey).nodup_iff.mpr hnd2

/-- A place whose only data is a numeric rating scores `rating*10 - 15`
(default reviews 0, default travel 30 minutes, no bonus). -/
theorem score_ratingOnly (nm : String) (q : ℚ) :
    calculate_score { name := some nm, rating := some (.num q) } [] = q * 10 - 15 := by
  unfold calculate_score
  have h3 : effTravelMinutes { name := some nm, rating := some (.num q) } = 30 := by
    simp [effTravelMinutes, leadingToken, parseInt?, parseSign, digitsVal]
  have h1 : effRating { name := some nm, rating := some (.num q) } = q := rfl
  have h2 : effReviews { name := some nm, rating := some (.num q) } = 0 := rfl
  rw [h1, h2, h3]
  simp [categoryMem]
  ring

/-- A place rated 4 and nothing else. -/
def pR4 : Place := { name := some "low", rating := some (.num 4) }

/-- A place rated 5 and nothing else. -/
def pR5 : Place := { name := some "high", rating := some (.num 5) }

/-- C5 witness: with distinct scores (25 and 35) the ranked output is
forced to be exactly the descending list, and a non-numeric rating sorts
with key 0 in "rating" mode. -/
theorem ranking_correct_witness :
    [withScore [] pR5, withScore [] pR4] = rank_destinations [pR4, pR5] [] ∧
    ratingKey { name := some "u", rating := some (.str "Unknown") } = 0 := by
  have h4 : scoreKey (withScore [] pR4) = 25 := by
    show calculate_score { name := some "low", rating := some (.num 4) } [] = 25
    rw [score_ratingOnly]
    norm_num
  have h5 : scoreKey (withScore [] pR5) = 35 := by
    show calculate_score { name := some "high", rating := some (.num 5) } [] = 35
    rw [score_ratingOnly]
    norm_num
  constructor
  · refine (ranking_correct [pR4, pR5] []).2.2.2.2.1 _ ?_ ?_ ?_
    · exact (List.Perm.swap (withScore [] pR4) (withScore [] pR5) []).trans
        (ranking_correct [pR4, pR5] []).1.symm
    · refine List.Pairwise.cons ?_ (List.pairwise_singleton _ _)
      intro b hb
      rw [List.mem_singleton] at hb
      rw [hb, h4, h5]
      norm_num
    · show ([withScore [] pR4, withScore [] pR5].map scoreKey).Nodup
      rw [List.map_cons, List.map_cons, List.map_nil, h4, h5]
      norm_num
  · exact (ranking_correct [] []).2.2.2.2.2.2.2.2.1
      { name := some "u", rating := some (.str "Unknown") } (.str "Unknown") rfl rfl

theorem mem_dedupSeen (a : String) :
    ∀ (l seen : List String), a ∈ dedupSeen seen l ↔ a ∈ l ∧ a ∉ seen := by
  intro l
  induction l with
  | nil => intro seen; simp [dedupSeen]
  | cons x xs ih =>
    intro seen
    by_cases hx : x ∈ seen
    · rw [dedupSeen, if_pos hx, ih seen]
      constructor
      · rintro ⟨h1, h2⟩
        exact ⟨List.mem_cons_of_mem x h1, h2⟩
      · rintro ⟨h1, h2⟩
        rcases List.mem_cons.mp h1 with rfl | h1
        · exact absurd hx h2
        · exact ⟨h1, h2⟩
    · rw [dedupSeen, if_neg hx, List.mem_cons, ih (x :: seen)]
      by_cases hax : a = x
      · subst hax
        simp [hx]
      · constructor
        · rintro (rfl | ⟨h1, h2⟩)
          · exact absurd rfl hax
          · exact ⟨List.mem_cons_of_mem x h1, fun hs => h2 (List.mem_cons_of_mem _ hs)⟩
        · rintro ⟨h1, h2⟩
          rcases List.mem_cons.mp h1 with rfl | h1
          · exact absurd rfl hax
          · refine Or.inr ⟨h1, ?_⟩
            intro hmem
            rcases List.mem_cons.mp hmem with h | h
            · exact hax h
            · exact h2 h

theorem nodup_dedupSeen : ∀ (l seen : List String), (dedupSeen seen l).Nodup := by
  intro l
  induction l with
  | nil => intro seen; simp [dedupSeen]
  | cons x xs ih =>
    intro seen
    by_cases hx : x ∈ seen
    · rw [dedupSeen, if_pos hx]
      exact ih seen
    · rw [dedupSeen, if_neg hx, List.nodup_cons]
      refine ⟨?_, ih (x :: seen)⟩
      intro hmem
      exact ((mem_dedupSeen x xs (x :: seen)).mp hmem).2 (List.mem_cons_self x seen)

theorem mem_dedupFirst (a : String) (l : List String) : a ∈ dedupFirst l ↔ a ∈ l := by
  rw [dedupFirst, mem_dedupSeen]
  simp

theorem nodup_dedupFirst (l : List String) : (dedupFirst l).Nodup :=
  nodup_dedupSeen l []

/-- C3 amended: `get_weather_forecast` emits one entry per distinct
calendar-date prefix, keeping the first N dates in strictly ascending
lexical order (so exactly 2 entries for samples spanning 2 dates when
N ≥ 2); each entry carries the arithmetic mean of its date's temperatures
**rounded to one decimal place** and a description of maximal frequency
among that date's samples. -/
theorem get_weather_forecast_correct (entries : List ForecastEntry) (days : ℕ) :
    ((get_weather_forecast entries days).length =
      min days (dedupFirst (entries.map dateOf)).length) ∧
    (((get_weather_forecast entries days).map ForecastDay.date).Pairwise (· < ·)) ∧
    (∀ fd ∈ get_weather_forecast entries days,
      (∃ e ∈ entries, dateOf e = fd.date) ∧
      fd.avg_temp = pyRound
        (((entries.filter (fun e => dateOf e == fd.date)).map ForecastEntry.temp).sum /
          (((entries.filter (fun e => dateOf e == fd.date)).map ForecastEntry.temp).length : ℚ))
        1 ∧
      (∃ e ∈ entries, dateOf e = fd.date ∧ e.desc = fd.description) ∧
      (∀ e ∈ entries, dateOf e = fd.date →
        ((entries.filter (fun e2 => dateOf e2 == fd.date)).map ForecastEntry.desc).count e.desc ≤
          ((entries.filter (fun e2 => dateOf e2 == fd.date)).map ForecastEntry.desc).count
            fd.description)) ∧
    ((dedupFirst (entries.map dateOf)).length = 2 → 2 ≤ days →
      (get_weather_forecast entries days).length = 2) := by
  have hperm : List.Perm (forecastDays entries) (dedupFirst (entries.map dateOf)) :=
    List.perm_insertionSort _ _
  have hlen : (get_weather_forecast entries days).length =
      min days (dedupFirst (entries.map dateOf)).length := by
    rw [get_weather_forecast, List.length_map, List.length_take, hperm.length_eq]
  refine ⟨hlen, ?_, ?_, ?_⟩
  · have hdates : (get_weather_forecast entries days).map ForecastDay.date =
        (forecastDays entries).take days := by
      rw [get_weather_forecast, List.map_map]
      have hid : (ForecastDay.date ∘ forecastDayFor entries) = id := funext (fun d => rfl)
      rw [hid, List.map_id]
    rw [hdates]
    have hsorted : (forecastDays entries).Pairwise (fun a b : String => a ≤ b) :=
      List.sorted_insertionSort _ _
    have hnd : (forecastDays entries).Nodup :=
      hperm.nodup_iff.mpr (nodup_dedupFirst _)
    have hlt : (forecastDays entries).Pairwise (· < ·) := by
      refine (hsorted.and hnd).imp ?_
      rintro a b ⟨hle, hne⟩
      exact lt_of_le_of_ne hle hne
    exact hlt.sublist (List.take_sublist days _)
  · intro fd hfd
    rw [get_weather_forecast, List.mem_map] at hfd
    obtain ⟨day, hday, hfdeq⟩ := hfd
    have hdate : fd.date = day := by rw [← hfdeq]; rfl
    have hdaymem : day ∈ entries.map dateOf := by
      rw [← mem_dedupFirst day, ← hperm.mem_iff]
      exact (List.take_sublist days _).subset hday
    rw [List.mem_map] at hdaymem
    obtain ⟨e0, he0, hde0⟩ := hdaymem
    have hdescs_mem : e0.desc ∈ (entries.filter (fun e => dateOf e == day)).map
        ForecastEntry.desc := by
      rw [List.mem_map]
      exact ⟨e0, List.mem_filter.mpr ⟨he0, by simp [hde0]⟩, rfl⟩
    obtain ⟨m, hm⟩ : ∃ m, mostCommonDesc ((entries.filter (fun e => dateOf e == day)).map
        ForecastEntry.desc) = some m := by
      cases harg : mostCommonDesc ((entries.filter (fun e => dateOf e == day)).map
          ForecastEntry.desc) with
      | none =>
        rw [mostCommonDesc, List.argmax_eq_none] at harg
        rw [← mem_dedupFirst] at hdescs_mem
        rw [harg] at hdescs_mem
        exact absurd hdescs_mem (by simp)
      | some m => exact ⟨m, rfl⟩
    have hdesc : fd.description = m := by
      rw [← hfdeq]
      show (mostCommonDesc _).getD "" = m
      rw [hm]
      rfl
    refine ⟨⟨e0, he0, by rw [hdate]; exact hde0⟩, ?_, ?_, ?_⟩
    · rw [hdate, ← hfdeq]
      rfl
    · have hmmem := List.argmax_mem hm
      rw [mem_dedupFirst, List.mem_map] at hmmem
      obtain ⟨e1, he1, hdesc1⟩ := hmmem
      rw [List.mem_filter] at he1
      refine ⟨e1, he1.1, ?_, by rw [hdesc, hdesc1]⟩
      have hb := he1.2
      rw [beq_iff_eq] at hb
      rw [hdate, hb]
    · intro e he hdateE
      rw [hdate] at hdateE ⊢
      have hmem2 : e.desc ∈ dedupFirst ((entries.filter (fun e2 => dateOf e2 == day)).map
          ForecastEntry.desc) := by
        rw [mem_dedupFirst, List.mem_map]
        exact ⟨e, List.mem_filter.mpr ⟨he, by simp [hdateE]⟩, rfl⟩
      have hcount := List.le_of_mem_argmax hmem2 hm
      rw [hdesc]
      exact hcount
  · intro h2 hdays
    rw [hlen, h2]
    exact min_eq_right hdays

/-- Eight 3-hourly samples spanning two calendar dates; the first date's
temperatures (0, 0, 0, 1) have mean 1/4 = 0.25. -/
def fcSamples : List ForecastEntry :=
  [⟨"2023-05-10 00:00:00", 0, "clear sky"⟩, ⟨"2023-05-10 03:00:00", 0, "clear sky"⟩,
   ⟨"2023-05-10 06:00:00", 0, "rain"⟩, ⟨"2023-05-10 09:00:00", 1, "clear sky"⟩,
   ⟨"2023-05-11 00:00:00", 20, "rain"⟩, ⟨"2023-05-11 03:00:00", 20, "rain"⟩,
   ⟨"2023-05-11 06:00:00", 20, "mist"⟩, ⟨"2023-05-11 09:00:00", 20, "rain"⟩]

theorem fcSamples_filter1 : fcSamples.filter (fun e => dateOf e == "2023-05-10") =
    [⟨"2023-05-10 00:00:00", 0, "clear sky"⟩, ⟨"2023-05-10 03:00:00", 0, "clear sky"⟩,
     ⟨"2023-05-10 06:00:00", 0, "rain"⟩, ⟨"2023-05-10 09:00:00", 1, "clear sky"⟩] := by
  decide

theorem fcSamples_filter2 : fcSamples.filter (fun e => dateOf e == "2023-05-11") =
    [⟨"2023-05-11 00:00:00", 20, "rain"⟩, ⟨"2023-05-11 03:00:00", 20, "rain"⟩,
     ⟨"2023-05-11 06:00:00", 20, "mist"⟩, ⟨"2023-05-11 09:00:00", 20, "rain"⟩] := by
  decide

theorem fcSamples_days : forecastDays fcSamples = ["2023-05-10", "2023-05-11"] := by
  have hd : dedupFirst (fcSamples.map dateOf) = ["2023-05-10", "2023-05-11"] := by decide
  have hle : ("2023-05-10" : String) ≤ "2023-05-11" := by
    rw [String.le_iff_toList_le]
    decide
  rw [forecastDays, hd]
  simp [List.insertionSort, List.orderedInsert, hle]

theorem roundHalfEven_five_halves : roundHalfEven (5 / 2) = 2 := by
  have hf : ⌊(5 / 2 : ℚ)⌋ = 2 := by
    rw [Int.floor_eq_iff]
    constructor <;> norm_num
  rw [roundHalfEven, hf]
  rw [if_neg (by norm_num), if_neg (by norm_num), if_pos (by decide)]

theorem pyRound_quarter : pyRound (1 / 4) 1 = 1 / 5 := by
  have hx : ((1 / 4 : ℚ) * 10 ^ 1) = 5 / 2 := by norm_num
  rw [pyRound, hx, roundHalfEven_five_halves]
  norm_num

theorem pyRound_twenty : pyRound 20 1 = 20 := by
  have hx : ((20 : ℚ) * 10 ^ 1) = ((200 : ℤ) : ℚ) := by norm_num
  have hf : ⌊((200 : ℤ) : ℚ)⌋ = 200 := Int.floor_intCast 200
  rw [pyRound, hx, roundHalfEven, hf]
  rw [if_pos (by norm_num)]
  norm_num

/-- C3 counterexample: for the eight samples of `fcSamples` the
2023-05-10 entry carries `avg_temp = 0.2`, while the arithmetic mean of
that date's temperatures is `0.25` — the emitted value is the mean
rounded to one decimal, not the mean itself. -/
theorem get_weather_forecast_ce :
    (get_weather_forecast fcSamples 3).map ForecastDay.avg_temp = [1 / 5, 20] ∧
    ((fcSamples.filter (fun e => dateOf e == "2023-05-10")).map ForecastEntry.temp).sum /
      ((((fcSamples.filter (fun e => dateOf e == "2023-05-10")).map
        ForecastEntry.temp).length : ℚ)) = 1 / 4 ∧
    (1 / 5 : ℚ) ≠ 1 / 4 := by
  refine ⟨?_, ?_, by norm_num⟩
  · rw [get_weather_forecast, fcSamples_days]
    show ([forecastDayFor fcSamples "2023-05-10",
      forecastDayFor fcSamples "2023-05-11"]).map ForecastDay.avg_temp = _
    rw [List.map_cons, List.map_cons, List.map_nil]
    show [pyRound _ 1, pyRound _ 1] = _
    rw [fcSamples_filter1, fcSamples_filter2]
    have h1 : (([(⟨"2023-05-10 00:00:00", 0, "clear sky"⟩ : ForecastEntry),
        ⟨"2023-05-10 03:00:00", 0, "clear sky"⟩, ⟨"2023-05-10 06:00:00", 0, "rain"⟩,
        ⟨"2023-05-10 09:00:00", 1, "clear sky"⟩]).map ForecastEntry.temp).sum /
        ((([(⟨"2023-05-10 00:00:00", 0, "clear sky"⟩ : ForecastEntry),
        ⟨"2023-05-10 03:00:00", 0, "clear sky"⟩, ⟨"2023-05-10 06:00:00", 0, "rain"⟩,
        ⟨"2023-05-10 09:00:00", 1, "clear sky"⟩]).map ForecastEntry.temp).length : ℚ) =
        1 / 4 := by
      simp [List.sum_cons]
    have h2 : (([(⟨"2023-05-11 00:00:00", 20, "rain"⟩ : ForecastEntry),
        ⟨"2023-05-11 03:00:00", 20, "rain"⟩, ⟨"2023-05-11 06:00:00", 20, "mist"⟩,
        ⟨"2023-05-11 09:00:00", 20, "rain"⟩]).map ForecastEntry.temp).sum /
        ((([(⟨"2023-05-11 00:00:00", 20, "rain"⟩ : ForecastEntry),
        ⟨"2023-05-11 03:00:00", 20, "rain"⟩, ⟨"2023-05-11 06:00:00", 20, "mist"⟩,
        ⟨"2023-05-11 09:00:00", 20, "rain"⟩]).map ForecastEntry.temp).length : ℚ) = 20 := by
      simp [List.sum_cons]
      norm_num
    rw [h1, h2, pyRound_quarter, pyRound_twenty]
  · rw [fcSamples_filter1]
    simp [List.sum_cons]

/-- C3 witness: eight samples across two dates yield exactly two
forecast-day entries, in strictly ascending date order. -/
theorem get_weather_forecast_correct_witness :
    (get_weather_forecast fcSamples 3).length = 2 ∧
    ((get_weather_forecast fcSamples 3).map ForecastDay.date).Pairwise (· < ·) := by
  exact ⟨(get_weather_forecast_correct fcSamples 3).2.2.2 (by decide) (by norm_num),
    (get_weather_forecast_correct fcSamples 3).2.1⟩

theorem haversine_zero : haversine_distance 0 0 0 0 = 0 := by
  unfold haversine_distance radiansOf
  dsimp only
  have h1 : ((0 : ℝ) - 0) * Real.pi / 180 / 2 = 0 := by ring
  rw [h1, Real.sin_zero]
  have h2 : ((0 : ℝ) ^ 2 + Real.cos (0 * Real.pi / 180) * Real.cos (0 * Real.pi / 180) * 0 ^ 2)
      = 0 := by ring
  rw [h2, Real.sqrt_zero]
  have h3 : (1 : ℝ) - 0 = 1 := by ring
  rw [h3, Real.sqrt_one]
  unfold atan2
  rw [if_pos (by norm_num : (0 : ℝ) < 1)]
  rw [show (0 : ℝ) / 1 = 0 by norm_num, Real.arctan_zero]
  ring

theorem haversine_pole : haversine_distance 0 0 90 0 = 6371 * (Real.pi / 2) := by
  unfold haversine_distance radiansOf
  dsimp only
  have h1 : ((90 : ℝ) - 0) * Real.pi / 180 / 2 = Real.pi / 4 := by ring
  have h2 : ((0 : ℝ) - 0) * Real.pi / 180 / 2 = 0 := by ring
  have h3 : (90 : ℝ) * Real.pi / 180 = Real.pi / 2 := by ring
  rw [h1, h2, h3, Real.sin_zero, Real.cos_pi_div_two, Real.sin_pi_div_four]
  have h4 : (Real.sqrt 2 / 2) ^ 2 + Real.cos (0 * Real.pi / 180) * 0 * 0 ^ 2 = 1 / 2 := by
    have hs : Real.sqrt 2 ^ 2 = 2 := Real.sq_sqrt (by norm_num)
    nlinarith [hs]
  rw [h4]
  have h5 : (1 : ℝ) - 1 / 2 = 1 / 2 := by ring
  rw [h5]
  have hpos : (0 : ℝ) < Real.sqrt (1 / 2) := Real.sqrt_pos.mpr (by norm_num)
  unfold atan2
  rw [if_pos hpos]
  rw [div_self (ne_of_gt hpos), Real.arctan_one]
  ring

theorem pyRoundR_zero : pyRoundR 0 2 = 0 := by
  have h0 : ((0 : ℝ) * 10 ^ 2) = 0 := by ring
  rw [pyRoundR, roundHalfEvenR, h0, Int.floor_zero]
  rw [if_pos (by norm_num)]
  norm_num

theorem pyRoundR_pole : pyRoundR (6371 * (Real.pi / 2)) 2 = 1000754 / 100 := by
  have hgt := Real.pi_gt_d6
  have hlt := Real.pi_lt_d6
  have hx : (6371 * (Real.pi / 2) * 10 ^ 2) = 318550 * Real.pi := by ring
  have hfloor : ⌊(318550 : ℝ) * Real.pi⌋ = 1000754 := by
    rw [Int.floor_eq_iff]
    constructor
    · push_cast
      nlinarith [hgt]
    · push_cast
      nlinarith [hlt]
  rw [pyRoundR, roundHalfEvenR, hx, hfloor]
  rw [if_pos (by push_cast; nlinarith [hlt])]
  norm_num



theorem fbdStep_coords (loc : ℚ × ℚ) (maxKm : ℚ) (d : Place) (la ln : ℚ)
    (hla : d.lat = some la) (hln : d.lng = some ln) :
    (haversine_distance (loc.1 : ℝ) (loc.2 : ℝ) (la : ℝ) (ln : ℝ) ≤ (maxKm : ℝ) →
      fbdStep loc maxKm d = some (annotatePlace loc la ln d)) ∧
    (¬ haversine_distance (loc.1 : ℝ) (loc.2 : ℝ) (la : ℝ) (ln : ℝ) ≤ (maxKm : ℝ) →
      fbdStep loc maxKm d = none) := by
  unfold fbdStep
  rw [hla, hln]
  dsimp only
  constructor
  · intro h
    rw [if_pos h]
  · intro h
    rw [if_neg h]

theorem fbdStep_missing (loc : ℚ × ℚ) (maxKm : ℚ) (d : Place)
    (h : d.lat = none ∨ d.lng = none) : fbdStep loc maxKm d = none := by
  unfold fbdStep
  rcases h with h | h
  · rw [h]
  · rw [h]
    cases d.lat <;> rfl

/-- C4 amended: `filter_by_distance` drops every record lacking a
coordinate, keeps exactly the records whose haversine distance (Earth
radius 6371 km) from the origin is `≤` the maximum (inclusive: a record
at exactly the maximum stays, one `0.01` km beyond it is excluded), and
annotates each survivor with that distance **rounded to two decimal
places**. -/
theorem filter_by_distance_correct (dests : List Place) (loc : ℚ × ℚ) (maxKm : ℚ) :
    (∀ q : Place, q ∈ filter_by_distance dests loc maxKm ↔
      ∃ d ∈ dests, ∃ la ln, d.lat = some la ∧ d.lng = some ln ∧
        haversine_distance (loc.1 : ℝ) (loc.2 : ℝ) (la : ℝ) (ln : ℝ) ≤ (maxKm : ℝ) ∧
        q = annotatePlace loc la ln d) ∧
    (∀ (d : Place) (la ln : ℚ), d.lat = some la → d.lng = some ln →
      haversine_distance (loc.1 : ℝ) (loc.2 : ℝ) (la : ℝ) (ln : ℝ) = (maxKm : ℝ) →
      filter_by_distance [d] loc maxKm = [annotatePlace loc la ln d]) ∧
    (∀ (d : Place) (la ln : ℚ), d.lat = some la → d.lng = some ln →
      haversine_distance (loc.1 : ℝ) (loc.2 : ℝ) (la : ℝ) (ln : ℝ) = (maxKm : ℝ) + 1 / 100 →
      filter_by_distance [d] loc maxKm = []) ∧
    (∀ d : Place, d.lat = none ∨ d.lng = none →
      filter_by_distance (d :: dests) loc maxKm = filter_by_distance dests loc maxKm) ∧
    (∀ q : Place, q ∈ filter_by_distance dests loc maxKm →
      ∃ la ln, q.lat = some la ∧ q.lng = some ln ∧ q.distance_km =
        some (pyRoundR (haversine_distance (loc.1 : ℝ) (loc.2 : ℝ) (la : ℝ) (ln : ℝ)) 2)) := by
  have hmem : ∀ q : Place, q ∈ filter_by_distance dests loc maxKm ↔
      ∃ d ∈ dests, ∃ la ln, d.lat = some la ∧ d.lng = some ln ∧
        haversine_distance (loc.1 : ℝ) (loc.2 : ℝ) (la : ℝ) (ln : ℝ) ≤ (maxKm : ℝ) ∧
        q = annotatePlace loc la ln d := by
    intro q
    rw [filter_by_distance, List.mem_filterMap]
    constructor
    · rintro ⟨d, hd, hfd⟩
      cases hla : d.lat with
      | none =>
        rw [fbdStep_missing loc maxKm d (Or.inl hla)] at hfd
        exact absurd hfd (by simp)
      | some la =>
        cases hln : d.lng with
        | none =>
          rw [fbdStep_missing loc maxKm d (Or.inr hln)] at hfd
          exact absurd hfd (by simp)
        | some ln =>
          by_cases hle :
              haversine_distance (loc.1 : ℝ) (loc.2 : ℝ) (la : ℝ) (ln : ℝ) ≤ (maxKm : ℝ)
          · rw [(fbdStep_coords loc maxKm d la ln hla hln).1 hle] at hfd
            exact ⟨d, hd, la, ln, hla, hln, hle, (Option.some.inj hfd).symm⟩
          · rw [(fbdStep_coords loc maxKm d la ln hla hln).2 hle] at hfd
            exact absurd hfd (by simp)
    · rintro ⟨d, hd, la, ln, hla, hln, hle, hq⟩
      exact ⟨d, hd, by rw [(fbdStep_coords loc maxKm d la ln hla hln).1 hle, hq]⟩
  refine ⟨hmem, ?_, ?_, ?_, ?_⟩
  · intro d la ln hla hln heq
    rw [filter_by_distance, List.filterMap_cons,
      (fbdStep_coords loc maxKm d la ln hla hln).1 (le_of_eq heq)]
    rfl
  · intro d la ln hla hln heq
    rw [filter_by_distance, List.filterMap_cons,
      (fbdStep_coords loc maxKm d la ln hla hln).2 (by rw [heq]; norm_num)]
    rfl
  · intro d hmiss
    rw [filter_by_distance, filter_by_distance, List.filterMap_cons,
      fbdStep_missing loc maxKm d hmiss]
  · intro q hq
    obtain ⟨d, _, la, ln, hla, hln, _, hq⟩ := (hmem q).mp hq
    refine ⟨la, ln, ?_, ?_, ?_⟩ <;> rw [hq] <;> [exact hla; exact hln; rfl]

/-- The North Pole as a place record. -/
def polePlace : Place := { name := some "pole", lat := some 90, lng := some 0 }

/-- C4 counterexample: from origin (0,0), the place at (90,0) lies at
haversine distance `6371·π/2 ≈ 10007.5437` km, but `filter_by_distance`
annotates it with `10007.54` — the rounded value, which differs from the
distance the claim says is stored. -/
theorem filter_by_distance_ce :
    (filter_by_distance [polePlace] (0, 0) 20000).map Place.distance_km =
      [some ((1000754 : ℝ) / 100)] ∧
    ((1000754 : ℝ) / 100) ≠ haversine_distance 0 0 90 0 := by
  have hc : haversine_distance (((0 : ℚ), (0 : ℚ)).1 : ℝ) (((0 : ℚ), (0 : ℚ)).2 : ℝ)
      ((90 : ℚ) : ℝ) ((0 : ℚ) : ℝ) = 6371 * (Real.pi / 2) := by
    show haversine_distance ((0 : ℚ) : ℝ) ((0 : ℚ) : ℝ) ((90 : ℚ) : ℝ) ((0 : ℚ) : ℝ) = _
    push_cast
    exact haversine_pole
  constructor
  · have hle : haversine_distance (((0 : ℚ), (0 : ℚ)).1 : ℝ) (((0 : ℚ), (0 : ℚ)).2 : ℝ)
        ((90 : ℚ) : ℝ) ((0 : ℚ) : ℝ) ≤ ((20000 : ℚ) : ℝ) := by
      rw [hc]
      have hlt := Real.pi_lt_d6
      push_cast
      nlinarith [hlt]
    have h1 : filter_by_distance [polePlace] (0, 0) 20000 =
        [annotatePlace (0, 0) 90 0 polePlace] := by
      rw [filter_by_distance, List.filterMap_cons,
        (fbdStep_coords (0, 0) 20000 polePlace 90 0 rfl rfl).1 hle]
      rfl
    have h2 : (annotatePlace (0, 0) 90 0 polePlace).distance_km =
        some ((1000754 : ℝ) / 100) := by
      show some (pyRoundR (haversine_distance _ _ _ _) 2) = _
      rw [hc, pyRoundR_pole]
    rw [h1, List.map_cons, List.map_nil, h2]
  · rw [haversine_pole]
    intro heq
    have hgt := Real.pi_gt_d6
    nlinarith [hgt]

/-- A place sitting exactly at the query origin. -/
def originPlace : Place := { name := some "origin", lat := some 0, lng := some 0 }

/-- C4 witness: with the origin as its own location, the place at
distance exactly `max_distance_km = 0` is retained (annotated with
distance 0), and with `max_distance_km = -0.01` the same place — now at
`max + 0.01` — is excluded. -/
theorem filter_by_distance_correct_witness :
    filter_by_distance [originPlace] (0, 0) 0 = [annotatePlace (0, 0) 0 0 originPlace] ∧
    filter_by_distance [originPlace] (0, 0) (-1 / 100) = [] ∧
    (annotatePlace (0, 0) 0 0 originPlace).distance_km = some 0 := by
  have hz : haversine_distance (((0 : ℚ), (0 : ℚ)).1 : ℝ) (((0 : ℚ), (0 : ℚ)).2 : ℝ)
      ((0 : ℚ) : ℝ) ((0 : ℚ) : ℝ) = 0 := by
    show haversine_distance ((0 : ℚ) : ℝ) ((0 : ℚ) : ℝ) ((0 : ℚ) : ℝ) ((0 : ℚ) : ℝ) = _
    push_cast
    exact haversine_zero
  refine ⟨?_, ?_, ?_⟩
  · refine (filter_by_distance_correct [originPlace] (0, 0) 0).2.1 originPlace 0 0 rfl rfl ?_
    rw [hz]
    push_cast
    norm_num
  · refine (filter_by_distance_correct [originPlace] (0, 0) (-1 / 100)).2.2.1
      originPlace 0 0 rfl rfl ?_
    rw [hz]
    push_cast
    norm_num
  · show some (pyRoundR (haversine_distance _ _ _ _) 2) = _
    rw [hz, pyRoundR_zero]
